import Mathlib

/-! Synaptic-resource STDP (`synaptic_resource_stdp_impl.h`).

A shallow embedding of the CPU backend's resource-based STDP helpers
(`find_projection_by_type_and_postsynaptic`, `recalculate_synapse_weights`,
`is_point_in_interval`, `get_all_connected_synapses`, `update_isi`,
`renormalize_resource`, the weight update hooks and
`do_STDP_resource_plasticity`) together with theorems about them.

Conventions of the embedding:

* `uint64_t` values are natural numbers; every subtraction the source performs
  on them is reduced modulo `2^64` explicitly (`sub_u64`).
* `float` values are exact rationals extended with the IEEE 754 special values
  `+inf`, `-inf` and `NaN` (`FloatVal`).  Finite arithmetic is exact (no
  rounding, no overflow); the special values appear only where the source
  divides by zero or computes with a value that is already special.
* Objects reached through pointers live in an explicit heap: a
  `StdpProjection *` is an address in `Heap`, a synapse parameter pointer is a
  pair (projection address, synapse index).
-/

namespace knp

/-! ## Machine numbers -/

/-- The modulus of `uint64_t` arithmetic. -/
def U64 : Nat := 18446744073709551616

/-- Subtraction of two `uint64_t` values as C++ performs it: modulo `2^64`. -/
def sub_u64 (a b : Nat) : Nat := (a % U64 + (U64 - b % U64)) % U64

/-- A C++ `float`, with exact rational finite values and the IEEE 754 special
values. There is a single zero; a zero divisor is treated as `+0`, which is the
sign the sums and differences used as divisors in this file produce. -/
inductive FloatVal where
  | fin (q : ℚ)
  | pinf
  | ninf
  | nan
  deriving DecidableEq

namespace FloatVal

/-- IEEE 754 negation. -/
def neg : FloatVal → FloatVal
  | fin q => fin (-q)
  | pinf => ninf
  | ninf => pinf
  | nan => nan

/-- IEEE 754 addition (exact on finite values). -/
def add : FloatVal → FloatVal → FloatVal
  | nan, _ => nan
  | _, nan => nan
  | pinf, ninf => nan
  | ninf, pinf => nan
  | pinf, _ => pinf
  | _, pinf => pinf
  | ninf, _ => ninf
  | _, ninf => ninf
  | fin a, fin b => fin (a + b)

/-- IEEE 754 subtraction. -/
def sub (a b : FloatVal) : FloatVal := add a (neg b)

/-- The infinity whose sign is the sign of the rational `s`; `NaN` when `s = 0`. -/
def signedInf (s : ℚ) : FloatVal :=
  if 0 < s then pinf else if s < 0 then ninf else nan

/-- The sign of a float as a rational (`0` for zero and for `NaN`). -/
def sgn : FloatVal → ℚ
  | fin q => if 0 < q then 1 else if q < 0 then -1 else 0
  | pinf => 1
  | ninf => -1
  | nan => 0

/-- IEEE 754 multiplication (exact on finite values). -/
def mul : FloatVal → FloatVal → FloatVal
  | nan, _ => nan
  | _, nan => nan
  | fin a, fin b => fin (a * b)
  | a, b => signedInf (sgn a * sgn b)

/-- IEEE 754 division (exact on finite values). A finite nonzero value divided
by zero is an infinity, `0 / 0` and `inf / inf` are `NaN`. -/
def div : FloatVal → FloatVal → FloatVal
  | nan, _ => nan
  | _, nan => nan
  | fin a, fin b => if b = 0 then signedInf a else fin (a / b)
  | fin _, pinf => fin 0
  | fin _, ninf => fin 0
  | pinf, fin b => if b < 0 then ninf else pinf
  | ninf, fin b => if b < 0 then pinf else ninf
  | _, _ => nan

/-- The comparison `a < b` of two floats; false when either is `NaN`. -/
def lt : FloatVal → FloatVal → Bool
  | nan, _ => false
  | _, nan => false
  | fin a, fin b => decide (a < b)
  | fin _, pinf => true
  | fin _, ninf => false
  | pinf, _ => false
  | ninf, ninf => false
  | ninf, _ => true

/-- The value of `std::fabs`. -/
def fabs : FloatVal → FloatVal
  | fin q => fin |q|
  | pinf => pinf
  | ninf => pinf
  | nan => nan

/-- The value of `std::max(a, b)`, which is `(a < b) ? b : a`. -/
def std_max (a b : FloatVal) : FloatVal := if lt a b then b else a

/-- Conversion of a `size_t` to `float`. -/
def ofNat (n : Nat) : FloatVal := fin (n : ℚ)

instance : Add FloatVal := ⟨add⟩
instance : Sub FloatVal := ⟨sub⟩
instance : Mul FloatVal := ⟨mul⟩
instance : Div FloatVal := ⟨div⟩

/-- A float that holds a finite value. -/
def isFinite : FloatVal → Bool
  | fin _ => true
  | _ => false

end FloatVal

/-! ## Data model -/

/-- Modelled from the spec: the enumeration `neuron_traits::ISIPeriodType`, whose
declaration is not part of the sources at hand. The four named values are the
ones `update_isi` switches on; `undefined raw` stands for any other value the
underlying integer can hold, which is what the `default:` label catches. -/
inductive ISIPeriodType where
  | not_in_period
  | is_forced
  | period_started
  | period_continued
  | undefined (raw : Nat)
  deriving DecidableEq

/-- Modelled from the spec: the fields of
`neuron_parameters<SynapticResourceSTDPNeuron<NeuronType>>` that the functions
below read or write (the structure itself is declared elsewhere). The step
counters are `uint64_t`. -/
structure Neuron where
  free_synaptic_resource : FloatVal
  synaptic_resource_threshold : FloatVal
  resource_drain_coefficient : FloatVal
  isi_status : ISIPeriodType
  last_step : Nat
  first_isi_spike : Nat
  isi_max : Nat
  is_being_forced : Bool
  dopamine_value : FloatVal
  deriving DecidableEq

/-- Modelled from the spec: the `rule_` part of the parameters of a synapse that
uses `STDPSynapticResourceRule`. -/
structure SynapticResourceRule where
  synaptic_resource : FloatVal
  w_min : FloatVal
  w_max : FloatVal
  last_spike_step : Nat
  deriving DecidableEq

/-- Modelled from the spec: `STDPSynapseParams<DeltaSynapse>`, the parameters of a
delta synapse (`weight_`) extended with the resource rule (`rule_`). -/
structure STDPSynapseParams where
  weight : FloatVal
  rule : SynapticResourceRule
  deriving DecidableEq

/-- Modelled from the spec: one element of a projection, the tuple
(`synapse_data`, presynaptic neuron index, postsynaptic neuron index). -/
structure Synapse where
  params : STDPSynapseParams
  id_from : Nat
  id_to : Nat
  deriving DecidableEq

/-- Modelled from the spec: `core::Projection<SynapseType>` as far as this file
uses it, an ordered collection of synapses with the UIDs of the two populations
and the lock flag. -/
structure Projection where
  presynaptic_uid : Nat
  postsynaptic_uid : Nat
  is_locked : Bool
  synapses : List Synapse
  deriving DecidableEq

/-- The projection with its synapses replaced and everything else kept. -/
def Projection.with_synapses (projection : Projection) (synapses : List Synapse) : Projection :=
  { projection with synapses := synapses }

/-- Memory holding the projections: address to projection. -/
abbrev Heap := Nat → Projection

/-- A population is its ordered collection of neurons. -/
abbrev Population := List Neuron

/-! ## `update_isi` -/

/-- The result of `update_isi`: the neuron as the call leaves it, and either the
returned status or the message of the `std::runtime_error` it throws. -/
def update_isi (neuron : Neuron) (step : Nat) : Neuron × Except String ISIPeriodType :=
  if neuron.is_being_forced then
    let neuron := { neuron with isi_status := ISIPeriodType.is_forced }
    (neuron, Except.ok neuron.isi_status)
  else
    let switched : Except String Neuron :=
      match neuron.isi_status with
      | ISIPeriodType.not_in_period | ISIPeriodType.is_forced =>
        Except.ok
          { neuron with isi_status := ISIPeriodType.period_started, first_isi_spike := step }
      | ISIPeriodType.period_started =>
        if sub_u64 neuron.last_step step < neuron.isi_max then
          Except.ok { neuron with isi_status := ISIPeriodType.period_continued }
        else Except.ok neuron
      | ISIPeriodType.period_continued =>
        if sub_u64 neuron.last_step step ≥ neuron.isi_max ∨
            neuron.dopamine_value ≠ FloatVal.fin 0 then
          Except.ok
            { neuron with isi_status := ISIPeriodType.period_started, first_isi_spike := step }
        else Except.ok neuron
      | ISIPeriodType.undefined _ => Except.error "Not supported ISI status."
    match switched with
    | Except.error e => (neuron, Except.error e)
    | Except.ok neuron =>
      let neuron := { neuron with last_step := step }
      (neuron, Except.ok neuron.isi_status)

open FloatVal (fin pinf ninf nan)
open ISIPeriodType

/-! ## Synapse pointers -/

/-- A pointer to the parameters of one synapse: the address of the projection
that owns it and its index in that projection. -/
abbrev SynapsePtr := Nat × Nat

/-- The parameters a synapse pointer points to (`none` past the end). -/
def read_params (heap : Heap) (ptr : SynapsePtr) : Option STDPSynapseParams :=
  ((heap ptr.1).synapses[ptr.2]?).map Synapse.params

/-- A change of the parameters of a synapse, seen on the whole synapse record. -/
def on_params (f : STDPSynapseParams → STDPSynapseParams) (synapse : Synapse) : Synapse :=
  { synapse with params := f synapse.params }

/-- A write through a synapse pointer: the parameters it points to are replaced
by `f` of them, everything else in memory stays. -/
def modify_params (heap : Heap) (ptr : SynapsePtr)
    (f : STDPSynapseParams → STDPSynapseParams) : Heap :=
  Function.update heap ptr.1
    ((heap ptr.1).with_synapses ((heap ptr.1).synapses.modify (on_params f) ptr.2))

/-! ## `recalculate_synapse_weights` -/

/-- The body of the loop of `recalculate_synapse_weights` for one synapse. -/
def recalculate_weight (synapse : STDPSynapseParams) : STDPSynapseParams :=
  let syn_w := FloatVal.std_max synapse.rule.synaptic_resource (FloatVal.fin 0)
  let weight_diff := synapse.rule.w_max - synapse.rule.w_min
  { synapse with weight := synapse.rule.w_min + weight_diff * syn_w / (weight_diff + syn_w) }

/-- The function `recalculate_synapse_weights`: the weight of every synapse in the
vector of pointers is recomputed from its synaptic resource, in order. -/
def recalculate_synapse_weights (heap : Heap) (synapse_params : List SynapsePtr) : Heap :=
  synapse_params.foldl (fun h synapse_ptr => modify_params h synapse_ptr recalculate_weight) heap

/-! ## `get_all_connected_synapses` -/

/-- Modelled from the spec: `Projection::find_synapses(neuron_index,
Search::by_postsynaptic)`, the lookup by postsynaptic neuron index, which is not
part of the sources at hand. It gives the indexes of the synapses of the
projection whose postsynaptic neuron is `neuron_index`, each once, in
increasing order. -/
def find_synapses (projection : Projection) (neuron_index : Nat) : List Nat :=
  (List.range projection.synapses.length).filter fun index =>
    match projection.synapses[index]? with
    | some synapse => decide (synapse.id_to = neuron_index)
    | none => false

/-- The function `get_all_connected_synapses`: pointers to the parameters of all
synapses that end in `neuron_index`, projection after projection. -/
def get_all_connected_synapses (heap : Heap) (projections_to_neuron : List Nat)
    (neuron_index : Nat) : List SynapsePtr :=
  projections_to_neuron.foldl
    (fun result projection =>
      result ++ (find_synapses (heap projection) neuron_index).map fun index => (projection, index))
    []

/-! ## `renormalize_resource` -/

/-- What `renormalize_resource` works on: the population and the memory its
projection pointers point into. -/
structure NetState where
  population : Population
  heap : Heap

/-- The first test of the loop of `renormalize_resource`: the neuron is still in
its ISI period. -/
def in_isi_period (neuron : Neuron) (step : Nat) : Bool :=
  decide (sub_u64 step neuron.last_step ≤ neuron.isi_max) &&
    decide (neuron.isi_status ≠ ISIPeriodType.is_forced)

/-- The second test of the loop of `renormalize_resource`: the free resource is
below the threshold. -/
def below_threshold (neuron : Neuron) : Bool :=
  FloatVal.lt (FloatVal.fabs neuron.free_synaptic_resource) neuron.synaptic_resource_threshold

/-- The statement `synapse->rule_.synaptic_resource_ += add_resource_value`. -/
def add_resource (add_resource_value : FloatVal) (synapse : STDPSynapseParams) :
    STDPSynapseParams :=
  { synapse with
    rule := { synapse.rule with
      synaptic_resource := synapse.rule.synaptic_resource + add_resource_value } }

/-- One iteration of the loop of `renormalize_resource`, for `neuron_index`. -/
def renormalize_neuron (working_projections : List Nat) (step : Nat) (state : NetState)
    (neuron_index : Nat) : NetState :=
  match state.population[neuron_index]? with
  | none => state
  | some neuron =>
    if in_isi_period neuron step then state
    else if below_threshold neuron then state
    else
      let synapse_params :=
        get_all_connected_synapses state.heap working_projections neuron_index
      let add_resource_value :=
        neuron.free_synaptic_resource /
          (FloatVal.ofNat synapse_params.length + neuron.resource_drain_coefficient)
      let heap :=
        synapse_params.foldl
          (fun h synapse => modify_params h synapse (add_resource add_resource_value))
          state.heap
      let population :=
        state.population.set neuron_index
          { neuron with free_synaptic_resource := FloatVal.fin 0 }
      { population := population, heap := recalculate_synapse_weights heap synapse_params }

/-- The function `renormalize_resource`: the loop over all neuron indexes of the
population. -/
def renormalize_resource (working_projections : List Nat) (state : NetState) (step : Nat) :
    NetState :=
  (List.range state.population.length).foldl
    (renormalize_neuron working_projections step) state

/-! ## Closed form of one pass of `renormalize_resource` -/

/-- Both skip tests of the loop of `renormalize_resource`. -/
def is_skipped (neuron : Neuron) (step : Nat) : Bool :=
  in_isi_period neuron step || below_threshold neuron

/-- The value `add_resource_value` that `renormalize_resource` computes for the
neuron at `neuron_index`. -/
def add_resource_value (heap : Heap) (working_projections : List Nat) (neuron : Neuron)
    (neuron_index : Nat) : FloatVal :=
  neuron.free_synaptic_resource /
    (FloatVal.ofNat (get_all_connected_synapses heap working_projections neuron_index).length +
      neuron.resource_drain_coefficient)

/-- What one iteration makes of the parameters of a synapse whose pointer occurs
`m` times among the connected synapses: `m` additions of the share, then `m`
recalculations of the weight. -/
def renormalized_params (m : Nat) (value : FloatVal) (params : STDPSynapseParams) :
    STDPSynapseParams :=
  recalculate_weight^[m] ((add_resource value)^[m] params)

/-- What the iterations for the neuron indexes below `bound` make of a synapse of
the projection at address `projection`, in terms of the state `start` before the
pass. -/
def renormalized_synapse (working_projections : List Nat) (start : NetState) (step : Nat)
    (bound : Nat) (projection : Nat) (synapse : Synapse) : Synapse :=
  if synapse.id_to < bound then
    match start.population[synapse.id_to]? with
    | some neuron =>
      if is_skipped neuron step then synapse
      else
        on_params
          (renormalized_params (working_projections.count projection)
            (add_resource_value start.heap working_projections neuron synapse.id_to))
          synapse
    | none => synapse
  else synapse

/-- What the iterations for the neuron indexes below `bound` make of the neuron at
`neuron_index`. -/
def renormalized_neuron (step : Nat) (bound : Nat) (neuron_index : Nat) (neuron : Neuron) :
    Neuron :=
  if neuron_index < bound ∧ is_skipped neuron step = false then
    { neuron with free_synaptic_resource := FloatVal.fin 0 }
  else neuron

/-! ## Observations and example data -/

/-- The statuses `update_isi` returns when it is called for the same neuron at the
given steps one after the other, with the neuron as the last call leaves it. -/
def update_isi_seq (neuron : Neuron) : List Nat → Neuron × List (Except String ISIPeriodType)
  | [] => (neuron, [])
  | step :: rest =>
    let first := update_isi neuron step
    let others := update_isi_seq first.1 rest
    (others.1, first.2 :: others.2)

/-- The synaptic resource a synapse pointer points to (`NaN` past the end). -/
def resource_at (heap : Heap) (ptr : SynapsePtr) : FloatVal :=
  match read_params heap ptr with
  | some params => params.rule.synaptic_resource
  | none => FloatVal.nan

/-- The sum of a list of floats, added from the left starting at zero. -/
def FloatVal.sum (values : List FloatVal) : FloatVal :=
  values.foldl (fun total value => total + value) (FloatVal.fin 0)

/-- A neuron outside any ISI period with `isi_max = 5`, no dopamine, free
resource `10`, threshold `1` and drain coefficient `1`. -/
def example_neuron : Neuron :=
  { free_synaptic_resource := FloatVal.fin 10
    synaptic_resource_threshold := FloatVal.fin 1
    resource_drain_coefficient := FloatVal.fin 1
    isi_status := ISIPeriodType.not_in_period
    last_step := 0
    first_isi_spike := 0
    isi_max := 5
    is_being_forced := false
    dopamine_value := FloatVal.fin 0 }

/-- A synapse from neuron `0` to neuron `target` with the given resource and
weight bounds, and weight `0`. -/
def example_synapse (resource w_min w_max : ℚ) (target : Nat) : Synapse :=
  { params :=
      { weight := FloatVal.fin 0
        rule :=
          { synaptic_resource := FloatVal.fin resource
            w_min := FloatVal.fin w_min
            w_max := FloatVal.fin w_max
            last_spike_step := 0 } }
    id_from := 0
    id_to := target }

/-- A projection with four synapses into neuron `0`. -/
def example_projection : Projection :=
  { presynaptic_uid := 1
    postsynaptic_uid := 2
    is_locked := false
    synapses :=
      [example_synapse 1 (1 / 10) (9 / 10) 0, example_synapse 2 (1 / 10) (9 / 10) 0,
        example_synapse 0 (1 / 10) (9 / 10) 0, example_synapse (-1) (1 / 10) (9 / 10) 0] }

/-- One neuron with free resource `10` and drain coefficient `1`, and memory
whose projections all have four synapses into that neuron. -/
def example_state : NetState :=
  { population := [example_neuron]
    heap := fun _ => example_projection }

/-- The example neuron with drain coefficient `0` and free resource `8`. -/
def example_neuron_no_drain : Neuron :=
  { example_neuron with
    free_synaptic_resource := FloatVal.fin 8
    resource_drain_coefficient := FloatVal.fin 0 }

/-- The example state with the neuron that has no drain. -/
def example_state_no_drain : NetState :=
  { population := [example_neuron_no_drain]
    heap := fun _ => example_projection }

/-- Memory whose projections hold one synapse with the given resource and
bounds. -/
def single_synapse_heap (resource w_min w_max : ℚ) : Heap :=
  fun _ =>
    { presynaptic_uid := 1
      postsynaptic_uid := 2
      is_locked := false
      synapses := [example_synapse resource w_min w_max 0] }

/-! ## `is_point_in_interval` -/

/-- The function `is_point_in_interval` on `uint64_t` values. -/
def is_point_in_interval (interval_begin interval_end point : Nat) : Bool :=
  let is_after_begin := decide (point ≥ interval_begin)
  let is_before_end := decide (point ≤ interval_end)
  let is_overflow := decide (interval_end < interval_begin)
  (is_after_begin && is_before_end) || ((is_after_begin || is_before_end) && is_overflow)

/-! ## `find_projection_by_type_and_postsynaptic` -/

/-- Modelled from the spec: one element of the projection container, whose member
`arg_` is a variant over `synapse_traits::AllSynapses`. `index` is `arg_.index()`,
the position of the synapse type the variant holds, and `projection` is the
projection it holds, of which only the lock flag and the postsynaptic UID are
read here. -/
structure ProjectionVariant where
  index : Nat
  projection : Projection
  deriving DecidableEq

/-- The test the loop of `find_projection_by_type_and_postsynaptic` applies to one
element: the two `continue` statements and the final comparison. -/
def is_found (type_index : Nat) (post_uid : Nat) (exclude_locked : Bool)
    (projection : ProjectionVariant) : Bool :=
  if projection.index ≠ type_index then false
  else if projection.projection.is_locked && exclude_locked then false
  else decide (projection.projection.postsynaptic_uid = post_uid)

/-- The function `find_projection_by_type_and_postsynaptic<SynapseType>`, with
`type_index` the index of `SynapseType` in `AllSynapses`. A returned pointer is
the position in the container of the projection it points to. -/
def find_projection_by_type_and_postsynaptic (type_index : Nat)
    (projections : List ProjectionVariant) (post_uid : Nat) (exclude_locked : Bool) :
    List Nat :=
  (List.range projections.length).foldl
    (fun result position =>
      match projections[position]? with
      | none => result
      | some projection =>
        if is_found type_index post_uid exclude_locked projection then result ++ [position]
        else result)
    []

/-! ## Weight update hooks -/

/-- Modelled from the spec: a spike message, the sender, the step and the indexes
of the neurons that spiked. -/
structure SpikeMessage where
  sender_uid : Nat
  send_time : Nat
  neuron_indexes : List Nat
  deriving DecidableEq

/-- The hook `WeightUpdateSTDP<STDP<STDPSynapticResourceRule, _>>::init_projection`:
an empty body; the projection is returned as the call leaves it. -/
def WeightUpdateSTDP.init_projection (projection : Projection)
    (_messages : List SpikeMessage) (_step : Nat) : Projection :=
  projection

/-- The hook `WeightUpdateSTDP<STDP<STDPSynapticResourceRule, _>>::init_synapse`. -/
def WeightUpdateSTDP.init_synapse (params : STDPSynapseParams) (step : Nat) :
    STDPSynapseParams :=
  { params with rule := { params.rule with last_spike_step := step } }

/-- The hook `WeightUpdateSTDP<STDP<STDPSynapticResourceRule, _>>::modify_weights`:
an empty body. -/
def WeightUpdateSTDP.modify_weights (projection : Projection) : Projection :=
  projection

/-- The hook
`WeightUpdateStdpMp<STDP<STDPSynapticResourceRule, _>>::init_projection_part`:
an empty body. The message data maps steps to counts. -/
def WeightUpdateStdpMp.init_projection_part (projection : Projection)
    (_message_data : List (Nat × Nat)) (_step : Nat) : Projection :=
  projection

/-- The hook `WeightUpdateStdpMp<STDP<STDPSynapticResourceRule, _>>::init_synapse`. -/
def WeightUpdateStdpMp.init_synapse (params : STDPSynapseParams) (step : Nat) :
    STDPSynapseParams :=
  { params with rule := { params.rule with last_spike_step := step } }

/-- The hook
`WeightUpdateStdpMp<STDP<STDPSynapticResourceRule, _>>::modify_weights_part`:
an empty body. -/
def WeightUpdateStdpMp.modify_weights_part (projection : Projection) : Projection :=
  projection

/-! ## `do_STDP_resource_plasticity` -/

/-- The function `do_STDP_resource_plasticity`. The two functions it calls that
are only declared in this header, `process_spiking_neurons` and
`do_dopamine_plasticity`, are parameters: transformers of the population and
the memory of the projections. -/
def do_STDP_resource_plasticity
    (process_spiking_neurons : SpikeMessage → List Nat → NetState → Nat → NetState)
    (do_dopamine_plasticity : List Nat → NetState → Nat → NetState)
    (state : NetState) (working_projections : List Nat) (message : Option SpikeMessage)
    (step : Nat) : NetState :=
  let state :=
    match message with
    | some value => process_spiking_neurons value working_projections state step
    | none => state
  let state := do_dopamine_plasticity working_projections state step
  renormalize_resource working_projections state step

/-! ## More example data -/

/-- A projection without synapses. -/
def empty_projection : Projection :=
  { presynaptic_uid := 1
    postsynaptic_uid := 2
    is_locked := false
    synapses := [] }

/-- One neuron with free resource `8`, threshold `1` and drain coefficient `0`,
and memory whose projections have no synapses. -/
def example_state_no_synapses : NetState :=
  { population := [example_neuron_no_drain]
    heap := fun _ => empty_projection }

/-- The example neuron, forced, with a status outside the enumeration. -/
def example_neuron_forced_undefined : Neuron :=
  { example_neuron with is_being_forced := true, isi_status := ISIPeriodType.undefined 7 }

/-- The example neuron, not forced, with a status outside the enumeration. -/
def example_neuron_undefined : Neuron :=
  { example_neuron with isi_status := ISIPeriodType.undefined 7 }

/-- A test on the content of an optional value; false when there is none. -/
def holds_on {α : Type} (q : α → Bool) : Option α → Bool
  | some x => q x
  | none => false

/-! ## Pointer writes -/

theorem on_params_iterate (f : STDPSynapseParams → STDPSynapseParams) (n : Nat) (s : Synapse) :
    (on_params f)^[n] s = on_params (f^[n]) s := by
  induction n generalizing s with
  | zero => rfl
  | succ n ih =>
    rw [Function.iterate_succ_apply, ih]
    simp [on_params, Function.iterate_succ_apply]

theorem modify_params_apply (heap : Heap) (a : SynapsePtr)
    (f : STDPSynapseParams → STDPSynapseParams) (p : Nat) :
    modify_params heap a f p =
      if p = a.1 then
        (heap p).with_synapses ((heap p).synapses.modify (on_params f) a.2)
      else heap p := by
  unfold modify_params
  by_cases h : p = a.1
  · subst h
    simp
  · simp [Function.update_noteq h, h]

theorem modify_params_synapses_getElem? (heap : Heap) (a : SynapsePtr)
    (f : STDPSynapseParams → STDPSynapseParams) (p j : Nat) :
    (modify_params heap a f p).synapses[j]? =
      ((heap p).synapses[j]?).map ((on_params f)^[if a = (p, j) then 1 else 0]) := by
  rw [modify_params_apply]
  obtain ⟨a1, a2⟩ := a
  by_cases h : p = a1
  · subst h
    simp only [if_true, Projection.with_synapses, List.getElem?_modify]
    by_cases hj : a2 = j
    · subst hj
      simp
    · have : ¬ ((p, a2) : SynapsePtr) = (p, j) := by
        intro h; exact hj (Prod.mk.inj h).2
      simp [hj, this]
  · have : ¬ ((a1, a2) : SynapsePtr) = (p, j) := by
      intro h'; exact h (Prod.mk.inj h').1.symm
    simp [h, this]

theorem foldl_modify_synapses_getElem? (f : STDPSynapseParams → STDPSynapseParams)
    (ptrs : List SynapsePtr) (heap : Heap) (p j : Nat) :
    ((ptrs.foldl (fun h ptr => modify_params h ptr f) heap) p).synapses[j]? =
      ((heap p).synapses[j]?).map ((on_params f)^[ptrs.count (p, j)]) := by
  induction ptrs generalizing heap with
  | nil => simp
  | cons a rest ih =>
    rw [List.foldl_cons, ih, modify_params_synapses_getElem?, List.count_cons, Option.map_map,
      ← Function.iterate_add]
    simp only [beq_iff_eq]

theorem foldl_modify_fields (f : STDPSynapseParams → STDPSynapseParams)
    (ptrs : List SynapsePtr) (heap : Heap) (p : Nat) :
    ((ptrs.foldl (fun h ptr => modify_params h ptr f) heap) p).presynaptic_uid =
        (heap p).presynaptic_uid ∧
    ((ptrs.foldl (fun h ptr => modify_params h ptr f) heap) p).postsynaptic_uid =
        (heap p).postsynaptic_uid ∧
    ((ptrs.foldl (fun h ptr => modify_params h ptr f) heap) p).is_locked =
        (heap p).is_locked := by
  induction ptrs generalizing heap with
  | nil => simp
  | cons a rest ih =>
    rw [List.foldl_cons]
    obtain ⟨h1, h2, h3⟩ := ih (modify_params heap a f)
    rw [h1, h2, h3, modify_params_apply]
    split <;> simp [Projection.with_synapses]

/-! ## The vector of connected synapses -/

theorem foldl_append_eq_flatMap {α β : Type} (g : α → List β) (l : List α) (acc : List β) :
    l.foldl (fun result a => result ++ g a) acc = acc ++ l.flatMap g := by
  induction l generalizing acc with
  | nil => simp
  | cons a rest ih => simp [List.foldl_cons, ih, List.flatMap_cons, List.append_assoc]

theorem get_all_connected_synapses_eq (heap : Heap) (w : List Nat) (k : Nat) :
    get_all_connected_synapses heap w k =
      w.flatMap fun p => (find_synapses (heap p) k).map fun j => (p, j) := by
  unfold get_all_connected_synapses
  rw [foldl_append_eq_flatMap]
  simp

theorem mem_find_synapses (proj : Projection) (k j : Nat) :
    j ∈ find_synapses proj k ↔ ∃ s, proj.synapses[j]? = some s ∧ s.id_to = k := by
  unfold find_synapses
  rw [List.mem_filter, List.mem_range]
  constructor
  · rintro ⟨hj, h⟩
    have hs : proj.synapses[j]? = some proj.synapses[j] := List.getElem?_eq_getElem hj
    rw [hs] at h
    exact ⟨_, hs, by simpa using h⟩
  · rintro ⟨s, hs, hk⟩
    have hj : j < proj.synapses.length := by
      by_contra hcon
      rw [List.getElem?_eq_none (by omega)] at hs
      cases hs
    refine ⟨hj, ?_⟩
    rw [hs]
    simpa using hk

theorem find_synapses_nodup (proj : Projection) (k : Nat) : (find_synapses proj k).Nodup :=
  List.Nodup.filter _ (List.nodup_range _)

theorem find_synapses_congr (a b : Projection) (k : Nat)
    (h : a.synapses.map Synapse.id_to = b.synapses.map Synapse.id_to) :
    find_synapses a k = find_synapses b k := by
  have hlen : a.synapses.length = b.synapses.length := by
    simpa using congrArg List.length h
  have hget : ∀ j : Nat,
      (a.synapses[j]?).map Synapse.id_to = (b.synapses[j]?).map Synapse.id_to := by
    intro j
    rw [← List.getElem?_map, ← List.getElem?_map, h]
  unfold find_synapses
  rw [hlen]
  apply List.filter_congr
  intro j _
  have := hget j
  cases ha : a.synapses[j]? <;> cases hb : b.synapses[j]? <;> simp_all

theorem count_map_pair (l : List Nat) (q j : Nat) :
    List.count ((q, j) : SynapsePtr) (l.map fun j => (q, j)) = List.count j l := by
  induction l with
  | nil => rfl
  | cons x rest ih => simp [List.count_cons, ih]

theorem count_get_all_connected (heap : Heap) (w : List Nat) (k p j : Nat) :
    (get_all_connected_synapses heap w k).count (p, j) =
      if j ∈ find_synapses (heap p) k then w.count p else 0 := by
  rw [get_all_connected_synapses_eq]
  induction w with
  | nil => simp
  | cons q rest ih =>
    rw [List.flatMap_cons, List.count_append, ih, List.count_cons]
    by_cases hq : q = p
    · subst hq
      rw [count_map_pair, List.count_eq_of_nodup (find_synapses_nodup _ _)]
      by_cases hm : j ∈ find_synapses (heap q) k <;> simp [hm]
      omega
    · have hnot : ((p, j) : SynapsePtr) ∉
          (find_synapses (heap q) k).map fun j => ((q, j) : SynapsePtr) := by
        intro hmem
        rw [List.mem_map] at hmem
        obtain ⟨x, _, hx⟩ := hmem
        exact hq (Prod.mk.inj hx).1
      rw [List.count_eq_zero.2 hnot]
      by_cases hm : j ∈ find_synapses (heap p) k <;> simp [hm, hq]

/-! ## One iteration of `renormalize_resource` -/

theorem Projection.eq_of_fields (a b : Projection)
    (h1 : a.presynaptic_uid = b.presynaptic_uid) (h2 : a.postsynaptic_uid = b.postsynaptic_uid)
    (h3 : a.is_locked = b.is_locked) (h4 : a.synapses = b.synapses) : a = b := by
  cases a; cases b; simp_all

theorem renormalize_neuron_skipped (w : List Nat) (step : Nat) (s : NetState) (k : Nat)
    (neuron : Neuron) (hk : s.population[k]? = some neuron)
    (hs : is_skipped neuron step = true) :
    renormalize_neuron w step s k = s := by
  unfold renormalize_neuron
  rw [hk]
  simp only [is_skipped, Bool.or_eq_true] at hs
  rcases hs with hs | hs
  · simp [hs]
  · by_cases h1 : in_isi_period neuron step = true <;> simp [h1, hs]

theorem renormalize_neuron_population (w : List Nat) (step : Nat) (s : NetState) (k : Nat)
    (neuron : Neuron) (hk : s.population[k]? = some neuron)
    (hs : is_skipped neuron step = false) :
    (renormalize_neuron w step s k).population =
      s.population.set k { neuron with free_synaptic_resource := FloatVal.fin 0 } := by
  unfold renormalize_neuron
  rw [hk]
  simp only [is_skipped, Bool.or_eq_false_iff] at hs
  simp [hs.1, hs.2]

theorem renormalize_neuron_heap (w : List Nat) (step : Nat) (s : NetState) (k : Nat)
    (neuron : Neuron) (hk : s.population[k]? = some neuron)
    (hs : is_skipped neuron step = false) (p : Nat) :
    (renormalize_neuron w step s k).heap p =
      (s.heap p).with_synapses ((s.heap p).synapses.map fun syn =>
        if syn.id_to = k then
          on_params (renormalized_params (w.count p) (add_resource_value s.heap w neuron k)) syn
        else syn) := by
  unfold renormalize_neuron
  rw [hk]
  simp only [is_skipped, Bool.or_eq_false_iff] at hs
  simp only [hs.1, hs.2, Bool.false_eq_true, if_false, recalculate_synapse_weights]
  apply Projection.eq_of_fields
  · rw [(foldl_modify_fields _ _ _ _).1, (foldl_modify_fields _ _ _ _).1]
    rfl
  · rw [(foldl_modify_fields _ _ _ _).2.1, (foldl_modify_fields _ _ _ _).2.1]
    rfl
  · rw [(foldl_modify_fields _ _ _ _).2.2, (foldl_modify_fields _ _ _ _).2.2]
    rfl
  · apply List.ext_getElem?
    intro j
    simp only [Projection.with_synapses]
    rw [foldl_modify_synapses_getElem?, foldl_modify_synapses_getElem?, count_get_all_connected,
      List.getElem?_map, Option.map_map]
    cases hsyn : (s.heap p).synapses[j]? with
    | none => rfl
    | some syn =>
      simp only [Option.map_some', Function.comp_apply]
      by_cases hto : syn.id_to = k
      · have hm : j ∈ find_synapses (s.heap p) k := (mem_find_synapses _ _ _).2 ⟨syn, hsyn, hto⟩
        simp only [hm, hto, if_true, on_params_iterate]
        rfl
      · have hm : j ∉ find_synapses (s.heap p) k := by
          intro hmem
          obtain ⟨syn', hsyn', hto'⟩ := (mem_find_synapses _ _ _).1 hmem
          rw [hsyn] at hsyn'
          cases hsyn'
          exact hto hto'
        simp [hm, hto]

/-! ## The loop of `renormalize_resource` -/

theorem renormalized_synapse_id_to (w : List Nat) (s0 : NetState) (step bound p : Nat)
    (syn : Synapse) : (renormalized_synapse w s0 step bound p syn).id_to = syn.id_to := by
  unfold renormalized_synapse
  split
  · split
    · split <;> rfl
    · rfl
  · rfl

theorem get_all_connected_synapses_congr (h1 h2 : Heap) (w : List Nat) (k : Nat)
    (h : ∀ p, (h1 p).synapses.map Synapse.id_to = (h2 p).synapses.map Synapse.id_to) :
    get_all_connected_synapses h1 w k = get_all_connected_synapses h2 w k := by
  rw [get_all_connected_synapses_eq, get_all_connected_synapses_eq]
  congr 1
  funext p
  rw [find_synapses_congr _ _ _ (h p)]

theorem renormalized_synapse_succ_skipped (w : List Nat) (s0 : NetState) (step k p : Nat)
    (neuron : Neuron) (hk : s0.population[k]? = some neuron)
    (hs : is_skipped neuron step = true) (syn : Synapse) :
    renormalized_synapse w s0 step (k + 1) p syn = renormalized_synapse w s0 step k p syn := by
  unfold renormalized_synapse
  by_cases hlt : syn.id_to < k
  · have : syn.id_to < k + 1 := by omega
    simp [hlt, this]
  · by_cases heq : syn.id_to = k
    · simp [heq, hk, hs]
    · have : ¬ syn.id_to < k + 1 := by omega
      simp [hlt, this]

theorem renormalized_synapse_succ (w : List Nat) (s0 : NetState) (step k p : Nat)
    (neuron : Neuron) (hk : s0.population[k]? = some neuron)
    (hs : is_skipped neuron step = false) (syn : Synapse) :
    renormalized_synapse w s0 step (k + 1) p syn =
      (fun x : Synapse =>
        if x.id_to = k then
          on_params (renormalized_params (w.count p) (add_resource_value s0.heap w neuron k)) x
        else x) (renormalized_synapse w s0 step k p syn) := by
  have hid := renormalized_synapse_id_to w s0 step k p syn
  simp only [hid]
  unfold renormalized_synapse
  by_cases hlt : syn.id_to < k
  · have h1 : syn.id_to < k + 1 := by omega
    have h2 : syn.id_to ≠ k := by omega
    simp [hlt, h1, h2]
  · by_cases heq : syn.id_to = k
    · simp [heq, hk, hs]
    · have : ¬ syn.id_to < k + 1 := by omega
      simp [hlt, this, heq]

theorem renormalize_upto (w : List Nat) (step : Nat) (s0 : NetState) (k : Nat)
    (hk : k ≤ s0.population.length) :
    (∀ i : Nat, ((List.range k).foldl (renormalize_neuron w step) s0).population[i]? =
        (s0.population[i]?).map (renormalized_neuron step k i)) ∧
    (∀ p, ((List.range k).foldl (renormalize_neuron w step) s0).heap p =
        (s0.heap p).with_synapses
          ((s0.heap p).synapses.map (renormalized_synapse w s0 step k p))) := by
  induction k with
  | zero =>
    constructor
    · intro i
      cases h : s0.population[i]? with
      | none => simp [h]
      | some n => simp [h, renormalized_neuron]
    · intro p
      have : (s0.heap p).synapses.map (renormalized_synapse w s0 step 0 p) =
          (s0.heap p).synapses := by
        conv_rhs => rw [← List.map_id (s0.heap p).synapses]
        apply List.map_congr_left
        intro x _
        simp [renormalized_synapse]
      rw [this]
      rfl
  | succ k ih =>
    obtain ⟨ihpop, ihheap⟩ := ih (by omega)
    rw [List.range_succ, List.foldl_append]
    simp only [List.foldl_cons, List.foldl_nil]
    generalize hs : (List.range k).foldl (renormalize_neuron w step) s0 = s at ihpop ihheap
    have hklt : k < s0.population.length := by omega
    have hk0 : s0.population[k]? = some s0.population[k] := List.getElem?_eq_getElem hklt
    generalize s0.population[k] = neuron at hk0
    have hks : s.population[k]? = some neuron := by
      rw [ihpop, hk0]
      simp [renormalized_neuron]
    cases hskip : is_skipped neuron step with
    | true =>
      rw [renormalize_neuron_skipped w step s k neuron hks hskip]
      constructor
      · intro i
        rw [ihpop]
        cases hi : s0.population[i]? with
        | none => rfl
        | some n =>
          simp only [Option.map_some', renormalized_neuron]
          by_cases hik : i = k
          · subst hik
            rw [hk0] at hi
            cases hi
            simp [hskip]
          · have : i < k + 1 ↔ i < k := by omega
            simp [this]
      · intro p
        rw [ihheap]
        congr 1
        apply List.map_congr_left
        intro x _
        rw [renormalized_synapse_succ_skipped w s0 step k p neuron hk0 hskip]
    | false =>
      constructor
      · intro i
        rw [renormalize_neuron_population w step s k neuron hks hskip, List.getElem?_set]
        by_cases hik : k = i
        · subst hik
          have hlen : k < s.population.length := by
            by_contra hcon
            rw [List.getElem?_eq_none (by omega)] at hks
            cases hks
          simp [hlen, hk0, renormalized_neuron, hskip]
        · rw [if_neg hik, ihpop]
          cases hi : s0.population[i]? with
          | none => rfl
          | some n =>
            have : i < k + 1 ↔ i < k := by omega
            simp [renormalized_neuron, this]
      · intro p
        have hconn : get_all_connected_synapses s.heap w k =
            get_all_connected_synapses s0.heap w k := by
          apply get_all_connected_synapses_congr
          intro q
          rw [ihheap]
          simp only [Projection.with_synapses, List.map_map]
          apply List.map_congr_left
          intro x _
          exact renormalized_synapse_id_to w s0 step k q x
        have hval : add_resource_value s.heap w neuron k =
            add_resource_value s0.heap w neuron k := by
          unfold add_resource_value
          rw [hconn]
        rw [renormalize_neuron_heap w step s k neuron hks hskip, hval, ihheap]
        simp only [Projection.with_synapses, List.map_map]
        congr 1
        apply List.map_congr_left
        intro x _
        rw [renormalized_synapse_succ w s0 step k p neuron hk0 hskip]
        rfl

/-! ## Arithmetic on finite values -/

theorem FloatVal.fin_add (a b : ℚ) : fin a + fin b = fin (a + b) := rfl

theorem FloatVal.fin_sub (a b : ℚ) : fin a - fin b = fin (a - b) := by
  show FloatVal.add (fin a) (FloatVal.neg (fin b)) = fin (a - b)
  simp [FloatVal.neg, FloatVal.add, sub_eq_add_neg]

theorem FloatVal.fin_mul (a b : ℚ) : fin a * fin b = fin (a * b) := rfl

theorem FloatVal.fin_div (a b : ℚ) (hb : b ≠ 0) : fin a / fin b = fin (a / b) := by
  show FloatVal.div (fin a) (fin b) = fin (a / b)
  simp [FloatVal.div, hb]

theorem FloatVal.lt_fin (a b : ℚ) : FloatVal.lt (fin a) (fin b) = decide (a < b) := rfl

theorem FloatVal.std_max_fin_zero (r : ℚ) : FloatVal.std_max (fin r) (fin 0) = fin (Max.max r 0) := by
  unfold FloatVal.std_max
  rw [FloatVal.lt_fin]
  by_cases h : r < 0
  · simp [h, max_eq_right (le_of_lt h)]
  · simp [h, max_eq_left (not_lt.1 h)]

theorem FloatVal.fabs_fin (a : ℚ) : FloatVal.fabs (fin a) = fin |a| := rfl

theorem FloatVal.ofNat_eq (n : Nat) : FloatVal.ofNat n = fin (n : ℚ) := rfl

/-! ## The weight formula -/

theorem recalculate_weight_rule (x : STDPSynapseParams) : (recalculate_weight x).rule = x.rule :=
  rfl

theorem recalculate_weight_idem (x : STDPSynapseParams) :
    recalculate_weight (recalculate_weight x) = recalculate_weight x := rfl

theorem recalculate_weight_iterate (m : Nat) (hm : 1 ≤ m) (x : STDPSynapseParams) :
    recalculate_weight^[m] x = recalculate_weight x := by
  induction m with
  | zero => omega
  | succ m ih =>
    rw [Function.iterate_succ_apply']
    by_cases h : 1 ≤ m
    · rw [ih h, recalculate_weight_idem]
    · have : m = 0 := by omega
      subst this
      rfl

theorem recalculate_weight_fin (x : STDPSynapseParams) (a b r : ℚ)
    (hmin : x.rule.w_min = fin a) (hmax : x.rule.w_max = fin b)
    (hres : x.rule.synaptic_resource = fin r) (hne : b - a + max r 0 ≠ 0) :
    (recalculate_weight x).weight = fin (a + (b - a) * max r 0 / (b - a + max r 0)) := by
  unfold recalculate_weight
  simp only [hmin, hmax, hres, FloatVal.std_max_fin_zero, FloatVal.fin_sub, FloatVal.fin_mul,
    FloatVal.fin_add, FloatVal.fin_div _ _ hne]

theorem weight_formula_bounds (a b r : ℚ) (hlt : a < b) :
    a ≤ a + (b - a) * max r 0 / (b - a + max r 0) ∧
      a + (b - a) * max r 0 / (b - a + max r 0) < b := by
  have hd : 0 < b - a := by linarith
  have hs : 0 ≤ max r 0 := le_max_right _ _
  have hpos : 0 < b - a + max r 0 := by linarith
  constructor
  · have : 0 ≤ (b - a) * max r 0 / (b - a + max r 0) :=
      div_nonneg (mul_nonneg hd.le hs) hpos.le
    linarith
  · have : (b - a) * max r 0 / (b - a + max r 0) < b - a := by
      rw [div_lt_iff₀ hpos]
      nlinarith
    linarith

theorem read_params_foldl_modify (f : STDPSynapseParams → STDPSynapseParams)
    (ptrs : List SynapsePtr) (heap : Heap) (ptr : SynapsePtr) :
    read_params (ptrs.foldl (fun h q => modify_params h q f) heap) ptr =
      (read_params heap ptr).map (f^[ptrs.count ptr]) := by
  obtain ⟨p, j⟩ := ptr
  unfold read_params
  rw [foldl_modify_synapses_getElem?, Option.map_map, Option.map_map]
  congr 1
  funext s
  simp [on_params_iterate, on_params]

theorem read_params_recalculate (heap : Heap) (ptrs : List SynapsePtr) (ptr : SynapsePtr)
    (hptr : ptr ∈ ptrs) :
    read_params (recalculate_synapse_weights heap ptrs) ptr =
      (read_params heap ptr).map recalculate_weight := by
  unfold recalculate_synapse_weights
  rw [read_params_foldl_modify]
  have hc : 1 ≤ ptrs.count ptr := List.count_pos_iff.2 hptr
  congr 1
  funext x
  exact recalculate_weight_iterate _ hc x

/-! ## The whole pass, read through synapse pointers -/

theorem mem_get_all_connected_synapses (heap : Heap) (w : List Nat) (k : Nat) (ptr : SynapsePtr) :
    ptr ∈ get_all_connected_synapses heap w k ↔
      ptr.1 ∈ w ∧ ∃ s, (heap ptr.1).synapses[ptr.2]? = some s ∧ s.id_to = k := by
  obtain ⟨p, j⟩ := ptr
  rw [get_all_connected_synapses_eq, List.mem_flatMap]
  constructor
  · rintro ⟨q, hq, hmem⟩
    rw [List.mem_map] at hmem
    obtain ⟨x, hx, hxe⟩ := hmem
    obtain ⟨h1, h2⟩ := Prod.mk.inj hxe
    subst h1; subst h2
    exact ⟨hq, (mem_find_synapses _ _ _).1 hx⟩
  · rintro ⟨hp, hs⟩
    exact ⟨p, hp, List.mem_map.2 ⟨j, (mem_find_synapses _ _ _).2 hs, rfl⟩⟩

theorem renormalize_resource_heap (w : List Nat) (s0 : NetState) (step : Nat) (p : Nat) :
    (renormalize_resource w s0 step).heap p =
      (s0.heap p).with_synapses
        ((s0.heap p).synapses.map
          (renormalized_synapse w s0 step s0.population.length p)) :=
  (renormalize_upto w step s0 s0.population.length (le_refl _)).2 p

theorem renormalize_resource_population (w : List Nat) (s0 : NetState) (step : Nat) (i : Nat) :
    (renormalize_resource w s0 step).population[i]? =
      (s0.population[i]?).map (renormalized_neuron step s0.population.length i) :=
  (renormalize_upto w step s0 s0.population.length (le_refl _)).1 i

theorem getElem?_some_lt {α : Type} (l : List α) (i : Nat) (a : α) (h : l[i]? = some a) :
    i < l.length := by
  by_contra hcon
  rw [List.getElem?_eq_none (by omega)] at h
  cases h

theorem read_params_renormalize_processed (w : List Nat) (s0 : NetState) (step i : Nat)
    (neuron : Neuron) (ptr : SynapsePtr) (hneuron : s0.population[i]? = some neuron)
    (hskip : is_skipped neuron step = false)
    (hptr : ptr ∈ get_all_connected_synapses s0.heap w i) :
    ∃ old, read_params s0.heap ptr = some old ∧ 1 ≤ w.count ptr.1 ∧
      read_params (renormalize_resource w s0 step).heap ptr =
        some (renormalized_params (w.count ptr.1) (add_resource_value s0.heap w neuron i) old) := by
  obtain ⟨hw, syn, hsyn, hto⟩ := (mem_get_all_connected_synapses _ _ _ _).1 hptr
  have hlen := getElem?_some_lt _ _ _ hneuron
  refine ⟨syn.params, ?_, List.count_pos_iff.2 hw, ?_⟩
  · simp [read_params, hsyn]
  · unfold read_params
    rw [renormalize_resource_heap]
    simp only [Projection.with_synapses, List.getElem?_map, hsyn, Option.map_some']
    simp [renormalized_synapse, hto, hlen, hneuron, hskip, on_params]

theorem read_params_renormalize_skipped (w : List Nat) (s0 : NetState) (step i : Nat)
    (neuron : Neuron) (ptr : SynapsePtr) (hneuron : s0.population[i]? = some neuron)
    (hskip : is_skipped neuron step = true)
    (hptr : ptr ∈ get_all_connected_synapses s0.heap w i) :
    read_params (renormalize_resource w s0 step).heap ptr = read_params s0.heap ptr := by
  obtain ⟨_, syn, hsyn, hto⟩ := (mem_get_all_connected_synapses _ _ _ _).1 hptr
  unfold read_params
  rw [renormalize_resource_heap]
  simp only [Projection.with_synapses, List.getElem?_map, hsyn, Option.map_some']
  simp [renormalized_synapse, hto, hneuron, hskip]

theorem add_resource_iterate_rule (v : FloatVal) (m : Nat) (x : STDPSynapseParams) :
    ((add_resource v)^[m] x).rule.w_min = x.rule.w_min ∧
    ((add_resource v)^[m] x).rule.w_max = x.rule.w_max := by
  induction m with
  | zero => exact ⟨rfl, rfl⟩
  | succ m ih =>
    rw [Function.iterate_succ_apply']
    exact ih

theorem is_skipped_false (neuron : Neuron) (step : Nat) (h1 : in_isi_period neuron step = false)
    (h2 : below_threshold neuron = false) : is_skipped neuron step = false := by
  simp [is_skipped, h1, h2]

theorem is_skipped_true (neuron : Neuron) (step : Nat)
    (h : in_isi_period neuron step = true ∨ below_threshold neuron = true) :
    is_skipped neuron step = true := by
  simpa [is_skipped] using h

theorem read_params_renormalize_distinct (w : List Nat) (s0 : NetState) (step i : Nat)
    (neuron : Neuron) (ptr : SynapsePtr) (hdistinct : w.Nodup)
    (hneuron : s0.population[i]? = some neuron) (hskip : is_skipped neuron step = false)
    (hptr : ptr ∈ get_all_connected_synapses s0.heap w i) :
    ∃ old, read_params s0.heap ptr = some old ∧
      read_params (renormalize_resource w s0 step).heap ptr =
        some (recalculate_weight (add_resource (add_resource_value s0.heap w neuron i) old)) := by
  obtain ⟨old, hold, hcount, hnew⟩ :=
    read_params_renormalize_processed w s0 step i neuron ptr hneuron hskip hptr
  have hone : w.count ptr.1 = 1 := by
    have := List.nodup_iff_count_le_one.1 hdistinct ptr.1
    omega
  rw [hone] at hnew
  exact ⟨old, hold, hnew⟩

theorem renormalize_resource_free (w : List Nat) (s0 : NetState) (step i : Nat)
    (neuron : Neuron) (hneuron : s0.population[i]? = some neuron)
    (hskip : is_skipped neuron step = false) :
    ((renormalize_resource w s0 step).population[i]?).map Neuron.free_synaptic_resource =
      some (FloatVal.fin 0) := by
  rw [renormalize_resource_population, hneuron]
  have hlen := getElem?_some_lt _ _ _ hneuron
  simp [renormalized_neuron, hlen, hskip]

theorem FloatVal.isFinite_iff (x : FloatVal) : x.isFinite = true ↔ ∃ q, x = fin q := by
  cases x <;> simp [FloatVal.isFinite]

theorem add_resource_iterate_fin (a r : ℚ) (m : Nat) (x : STDPSynapseParams)
    (hx : x.rule.synaptic_resource = fin r) :
    ((add_resource (fin a))^[m] x).rule.synaptic_resource = fin (r + (m : ℚ) * a) := by
  induction m with
  | zero => simpa using hx
  | succ m ih =>
    rw [Function.iterate_succ_apply']
    show ((add_resource (fin a))^[m] x).rule.synaptic_resource + fin a = _
    rw [ih, FloatVal.fin_add]
    congr 1
    push_cast
    ring

theorem FloatVal.sum_map_fin {α : Type} (g : α → ℚ) (l : List α) :
    FloatVal.sum (l.map fun x => fin (g x)) = fin ((l.map g).sum) := by
  have key : ∀ (l : List α) (a : ℚ),
      (l.map fun x => fin (g x)).foldl (fun total value => total + value) (fin a) =
        fin (a + (l.map g).sum) := by
    intro l
    induction l with
    | nil => intro a; simp
    | cons x rest ih =>
      intro a
      rw [List.map_cons, List.foldl_cons, FloatVal.fin_add, ih, List.map_cons, List.sum_cons,
        add_assoc]
  unfold FloatVal.sum
  rw [key l 0, zero_add]

theorem count_instance_irrel (x : SynapsePtr) (l : List SynapsePtr) :
    List.count x l = @List.count SynapsePtr instBEqOfDecidableEq x l := by
  induction l with
  | nil => rfl
  | cons a rest ih =>
    rw [List.count_cons, @List.count_cons SynapsePtr instBEqOfDecidableEq, ih]
    by_cases h : a = x
    · simp [h, BEq.beq]
    · simp only [h, BEq.beq, decide_False, Bool.false_eq_true, if_false, add_zero]
      have hne : (decide (a.1 = x.1) && decide (a.2 = x.2)) = false := by
        rw [Bool.and_eq_false_iff]
        by_contra hcon
        push_neg at hcon
        exact h (Prod.ext (by simpa using hcon.1) (by simpa using hcon.2))
      simp [hne]

theorem count_dedup_sum (l : List SynapsePtr) :
    (l.dedup.map fun x => l.count x).sum = l.length := by
  have h := List.sum_map_count_dedup_eq_length l
  rw [← h]
  congr 1
  apply List.map_congr_left
  intro x _
  exact count_instance_irrel x l

theorem connected_count_sum (heap : Heap) (w : List Nat) (k : Nat) :
    ((get_all_connected_synapses heap w k).dedup.map fun ptr => w.count ptr.1).sum =
      (get_all_connected_synapses heap w k).length := by
  rw [← count_dedup_sum]
  congr 1
  apply List.map_congr_left
  intro ptr hptr
  obtain ⟨p, j⟩ := ptr
  rw [count_get_all_connected]
  have hmem := (mem_get_all_connected_synapses heap w k (p, j)).1 (List.mem_dedup.1 hptr)
  have : j ∈ find_synapses (heap p) k := (mem_find_synapses _ _ _).2 hmem.2
  simp [this]

/-! ## `update_isi` -/

theorem sub_u64_int (a b : Nat) :
    ((sub_u64 a b : Nat) : ℤ) = ((a : ℤ) - (b : ℤ)) % 2 ^ 64 := by
  unfold sub_u64 U64
  norm_num
  omega

/-- C1: for a neuron that is not being forced, `update_isi` follows the transition
table. From `not_in_period` or `is_forced` the status becomes `period_started`
and `first_isi_spike = step`. From `period_started` it becomes
`period_continued` when `last_step - step < isi_max` and stays `period_started`
otherwise, `first_isi_spike` untouched. From `period_continued` it becomes
`period_started` with `first_isi_spike = step` when `last_step - step ≥ isi_max`
or the dopamine value is not zero, and stays `period_continued` otherwise. In
every case `last_step = step` afterwards, no other field changes, and the
returned value is the new status. The subtraction is the one of `uint64_t`,
that is, modulo `2^64`, on the `last_step` of before the call. -/
theorem update_isi_transition_table (neuron : Neuron) (step : Nat)
    (hforced : neuron.is_being_forced = false) :
    ((neuron.isi_status = not_in_period ∨ neuron.isi_status = is_forced) →
      update_isi neuron step =
        ({ neuron with
            isi_status := period_started, first_isi_spike := step, last_step := step },
          Except.ok period_started)) ∧
    (neuron.isi_status = period_started →
      (((neuron.last_step : ℤ) - (step : ℤ)) % 2 ^ 64 < (neuron.isi_max : ℤ) →
        update_isi neuron step =
          ({ neuron with isi_status := period_continued, last_step := step },
            Except.ok period_continued)) ∧
      (¬ ((neuron.last_step : ℤ) - (step : ℤ)) % 2 ^ 64 < (neuron.isi_max : ℤ) →
        update_isi neuron step =
          ({ neuron with last_step := step }, Except.ok period_started))) ∧
    (neuron.isi_status = period_continued →
      (((neuron.isi_max : ℤ) ≤ ((neuron.last_step : ℤ) - (step : ℤ)) % 2 ^ 64 ∨
          neuron.dopamine_value ≠ FloatVal.fin 0) →
        update_isi neuron step =
          ({ neuron with
              isi_status := period_started, first_isi_spike := step, last_step := step },
            Except.ok period_started)) ∧
      (¬ ((neuron.isi_max : ℤ) ≤ ((neuron.last_step : ℤ) - (step : ℤ)) % 2 ^ 64 ∨
          neuron.dopamine_value ≠ FloatVal.fin 0) →
        update_isi neuron step =
          ({ neuron with last_step := step }, Except.ok period_continued))) := by
  have hsub := sub_u64_int neuron.last_step step
  refine ⟨?_, ?_, ?_⟩
  · rintro (h | h) <;> simp [update_isi, hforced, h]
  · intro h
    constructor
    · intro hlt
      have : sub_u64 neuron.last_step step < neuron.isi_max := by
        rw [← hsub] at hlt; exact_mod_cast hlt
      simp [update_isi, hforced, h, this]
    · intro hlt
      have : ¬ sub_u64 neuron.last_step step < neuron.isi_max := by
        rw [← hsub] at hlt; exact_mod_cast hlt
      simp [update_isi, hforced, h, this]
  · intro h
    constructor
    · intro hc
      have : sub_u64 neuron.last_step step ≥ neuron.isi_max ∨
          neuron.dopamine_value ≠ FloatVal.fin 0 := by
        rw [← hsub] at hc; exact_mod_cast hc
      simp [update_isi, hforced, h, this]
    · intro hc
      have : ¬ (sub_u64 neuron.last_step step ≥ neuron.isi_max ∨
          neuron.dopamine_value ≠ FloatVal.fin 0) := by
        rw [← hsub] at hc; exact_mod_cast hc
      simp [update_isi, hforced, h, this]

/-- The transition table at a neuron outside any ISI period that spikes at step 7. -/
theorem update_isi_transition_table_witness :
    example_neuron.is_being_forced = false ∧
      update_isi example_neuron 7 =
        ({ example_neuron with
            isi_status := period_started, first_isi_spike := 7, last_step := 7 },
          Except.ok period_started) :=
  ⟨rfl, (update_isi_transition_table example_neuron 7 rfl).1 (Or.inl rfl)⟩

/-- C2: for a neuron that is being forced, whatever its status (a value outside
the enumeration included), `update_isi` returns `is_forced`, sets the status to
`is_forced` and changes nothing else: `last_step` and `first_isi_spike` stay. -/
theorem update_isi_forced (neuron : Neuron) (step : Nat)
    (hforced : neuron.is_being_forced = true) :
    update_isi neuron step =
      ({ neuron with isi_status := is_forced }, Except.ok is_forced) := by
  simp [update_isi, hforced]

/-- A forced spike at step 7 of a neuron in a continued period. -/
theorem update_isi_forced_witness :
    ({ example_neuron with
        is_being_forced := true, isi_status := period_continued } : Neuron).is_being_forced =
        true ∧
      update_isi
          { example_neuron with is_being_forced := true, isi_status := period_continued } 7 =
        ({ example_neuron with is_being_forced := true, isi_status := is_forced },
          Except.ok is_forced) :=
  ⟨rfl, update_isi_forced _ 7 rfl⟩

/-- C3, evaluated: with `isi_max = 5`, no forcing and no dopamine, spikes at steps
1, 2, 3 of a neuron that starts outside any period give `period_started` three
times. The second and third call compute `last_step - step` as `1 - 2` and
`2 - 3`, which is `2^64 - 1` for `uint64_t` and not below `isi_max`. -/
theorem update_isi_close_spikes :
    (update_isi_seq example_neuron [1, 2, 3]).2 =
      [Except.ok period_started, Except.ok period_started, Except.ok period_started] ∧
    sub_u64 1 2 = 18446744073709551615 := by
  constructor
  · rfl
  · rfl

/-- C4, evaluated: with `isi_max = 5`, no forcing and no dopamine, spikes at steps
1 and 10 give `period_started` twice, and `first_isi_spike` is still `1` after
the second call: the `period_started` case of `update_isi` never writes it. -/
theorem update_isi_distant_spikes :
    (update_isi_seq example_neuron [1, 10]).2 =
      [Except.ok period_started, Except.ok period_started] ∧
    (update_isi_seq example_neuron [1, 10]).1.first_isi_spike = 1 ∧
    (update_isi_seq example_neuron [1, 10]).1.last_step = 10 := by
  refine ⟨?_, ?_, ?_⟩ <;> rfl

/-! ## `renormalize_resource` -/

/-- C5: let the working projections be distinct and let neuron `i` pass both skip
tests of `renormalize_resource` (it is not in its ISI period, and its absolute
free resource is not below the threshold). Then every synapse connected to `i`
(every pointer that `get_all_connected_synapses` returns for `i`) has after the
pass its old synaptic resource plus `free_synaptic_resource / (n + drain)`, `n`
being the number of connected synapses, and the free resource of the neuron is
`0`. -/
theorem renormalize_resource_distributes (working_projections : List Nat) (state : NetState)
    (step : Nat) (i : Nat) (neuron : Neuron) (ptr : SynapsePtr)
    (hdistinct : working_projections.Nodup)
    (hneuron : state.population[i]? = some neuron)
    (hperiod : in_isi_period neuron step = false)
    (hthreshold : below_threshold neuron = false)
    (hptr : ptr ∈ get_all_connected_synapses state.heap working_projections i) :
    (∃ old new,
      read_params state.heap ptr = some old ∧
      read_params (renormalize_resource working_projections state step).heap ptr = some new ∧
      new.rule.synaptic_resource =
        old.rule.synaptic_resource +
          neuron.free_synaptic_resource /
            (FloatVal.ofNat
                (get_all_connected_synapses state.heap working_projections i).length +
              neuron.resource_drain_coefficient)) ∧
    ((renormalize_resource working_projections state step).population[i]?).map
        Neuron.free_synaptic_resource = some (FloatVal.fin 0) := by
  have hskip := is_skipped_false neuron step hperiod hthreshold
  obtain ⟨old, hold, hnew⟩ :=
    read_params_renormalize_distinct working_projections state step i neuron ptr hdistinct
      hneuron hskip hptr
  exact ⟨⟨old, _, hold, hnew, rfl⟩,
    renormalize_resource_free working_projections state step i neuron hneuron hskip⟩

theorem example_state_connected :
    get_all_connected_synapses example_state.heap [0] 0 = [(0, 0), (0, 1), (0, 2), (0, 3)] := by
  decide

theorem example_neuron_processed :
    in_isi_period example_neuron 100 = false ∧ below_threshold example_neuron = false := by
  constructor
  · decide
  · simp [below_threshold, example_neuron, FloatVal.fabs, FloatVal.lt]

/-- Scenario C: free resource `10`, four connected synapses, drain coefficient
`1`; the share is `10 / (4 + 1) = 2`. -/
theorem renormalize_resource_distributes_witness :
    ([0] : List Nat).Nodup ∧
    example_state.population[0]? = some example_neuron ∧
    in_isi_period example_neuron 100 = false ∧
    below_threshold example_neuron = false ∧
    ((0, 2) : SynapsePtr) ∈ get_all_connected_synapses example_state.heap [0] 0 ∧
    example_neuron.free_synaptic_resource /
        (FloatVal.ofNat (get_all_connected_synapses example_state.heap [0] 0).length +
          example_neuron.resource_drain_coefficient) = FloatVal.fin 2 ∧
    ((∃ old new,
      read_params example_state.heap (0, 2) = some old ∧
      read_params (renormalize_resource [0] example_state 100).heap (0, 2) = some new ∧
      new.rule.synaptic_resource =
        old.rule.synaptic_resource +
          example_neuron.free_synaptic_resource /
            (FloatVal.ofNat (get_all_connected_synapses example_state.heap [0] 0).length +
              example_neuron.resource_drain_coefficient)) ∧
    ((renormalize_resource [0] example_state 100).population[0]?).map
        Neuron.free_synaptic_resource = some (FloatVal.fin 0)) := by
  have hmem : ((0, 2) : SynapsePtr) ∈ get_all_connected_synapses example_state.heap [0] 0 := by
    rw [example_state_connected]
    decide
  refine ⟨by decide, rfl, example_neuron_processed.1, example_neuron_processed.2, hmem, ?_,
    renormalize_resource_distributes [0] example_state 100 0 example_neuron (0, 2) (by decide)
      rfl example_neuron_processed.1 example_neuron_processed.2 hmem⟩
  rw [example_state_connected]
  simp only [example_neuron, List.length_cons, List.length_nil, FloatVal.ofNat_eq,
    FloatVal.fin_add]
  rw [FloatVal.fin_div _ _ (by norm_num)]
  norm_num

theorem example_no_drain_connected :
    get_all_connected_synapses example_state_no_drain.heap [0] 0 =
      [(0, 0), (0, 1), (0, 2), (0, 3)] := by
  decide

theorem example_no_drain_processed :
    in_isi_period example_neuron_no_drain 100 = false ∧
      below_threshold example_neuron_no_drain = false := by
  constructor
  · decide
  · simp [below_threshold, example_neuron_no_drain, example_neuron, FloatVal.fabs, FloatVal.lt]

theorem example_no_drain_finite :
    ∀ ptr ∈ get_all_connected_synapses example_state_no_drain.heap [0] 0,
      (resource_at example_state_no_drain.heap ptr).isFinite = true := by
  rw [example_no_drain_connected]
  decide

/-- C6: let neuron `i` pass both skip tests, have drain coefficient `0`, a finite
free resource and `n ≥ 1` connected synapses, all with a finite synaptic
resource. Then the sum over the connected synapses, each taken once, of
(resource after the pass minus resource before the pass) is the free resource
the neuron had before the pass, and its free resource after the pass is `0`.
Finite values are exact rationals. -/
theorem renormalize_resource_conserves (working_projections : List Nat) (state : NetState)
    (step : Nat) (i : Nat) (neuron : Neuron) (free : ℚ)
    (hneuron : state.population[i]? = some neuron)
    (hperiod : in_isi_period neuron step = false)
    (hthreshold : below_threshold neuron = false)
    (hfree : neuron.free_synaptic_resource = FloatVal.fin free)
    (hdrain : neuron.resource_drain_coefficient = FloatVal.fin 0)
    (hn : 1 ≤ (get_all_connected_synapses state.heap working_projections i).length)
    (hfinite : ∀ ptr ∈ get_all_connected_synapses state.heap working_projections i,
      (resource_at state.heap ptr).isFinite = true) :
    FloatVal.sum
        ((get_all_connected_synapses state.heap working_projections i).dedup.map fun ptr =>
          resource_at (renormalize_resource working_projections state step).heap ptr -
            resource_at state.heap ptr) = FloatVal.fin free ∧
    ((renormalize_resource working_projections state step).population[i]?).map
        Neuron.free_synaptic_resource = some (FloatVal.fin 0) := by
  have hskip := is_skipped_false neuron step hperiod hthreshold
  refine ⟨?_, renormalize_resource_free working_projections state step i neuron hneuron hskip⟩
  have hnq : ((get_all_connected_synapses state.heap working_projections i).length : ℚ) ≠ 0 := by
    have : (1 : ℚ) ≤ ((get_all_connected_synapses state.heap working_projections i).length : ℚ) := by
      exact_mod_cast hn
    linarith
  have hshare : add_resource_value state.heap working_projections neuron i =
      fin (free / ((get_all_connected_synapses state.heap working_projections i).length : ℚ)) := by
    unfold add_resource_value
    rw [hfree, hdrain, FloatVal.ofNat_eq, FloatVal.fin_add, add_zero, FloatVal.fin_div _ _ hnq]
  have hterm : ∀ ptr ∈ (get_all_connected_synapses state.heap working_projections i).dedup,
      resource_at (renormalize_resource working_projections state step).heap ptr -
          resource_at state.heap ptr =
        fin (((working_projections.count ptr.1 : ℕ) : ℚ) *
          (free / ((get_all_connected_synapses state.heap working_projections i).length : ℚ))) := by
    intro ptr hptr
    have hmem := List.mem_dedup.1 hptr
    obtain ⟨old, hold, _, hnew⟩ :=
      read_params_renormalize_processed working_projections state step i neuron ptr hneuron
        hskip hmem
    obtain ⟨r, hr⟩ := (FloatVal.isFinite_iff _).1 (hfinite ptr hmem)
    have hold_res : old.rule.synaptic_resource = fin r := by
      simpa [resource_at, hold] using hr
    simp only [resource_at, hold, hnew, renormalized_params]
    rw [hshare]
    have hm : ∀ m : Nat, ∀ y : STDPSynapseParams,
        (recalculate_weight^[m] y).rule = y.rule := by
      intro m
      induction m with
      | zero => intro y; rfl
      | succ m ih => intro y; rw [Function.iterate_succ_apply', recalculate_weight_rule, ih]
    rw [hm, add_resource_iterate_fin _ r _ old hold_res, hold_res, FloatVal.fin_sub]
    congr 1
    ring
  rw [List.map_congr_left hterm, FloatVal.sum_map_fin, List.sum_map_mul_right]
  have hsum := connected_count_sum state.heap working_projections i
  have hcast : ((get_all_connected_synapses state.heap working_projections i).dedup.map
      fun ptr => ((working_projections.count ptr.1 : ℕ) : ℚ)).sum =
      ((get_all_connected_synapses state.heap working_projections i).length : ℚ) := by
    rw [← hsum, Nat.cast_list_sum, List.map_map]
    rfl
  rw [hcast, mul_div_cancel₀ _ hnq]

/-- Conservation for free resource `8` shared among four synapses without drain. -/
theorem renormalize_resource_conserves_witness :
    example_state_no_drain.population[0]? = some example_neuron_no_drain ∧
    in_isi_period example_neuron_no_drain 100 = false ∧
    below_threshold example_neuron_no_drain = false ∧
    example_neuron_no_drain.free_synaptic_resource = FloatVal.fin 8 ∧
    example_neuron_no_drain.resource_drain_coefficient = FloatVal.fin 0 ∧
    1 ≤ (get_all_connected_synapses example_state_no_drain.heap [0] 0).length ∧
    (∀ ptr ∈ get_all_connected_synapses example_state_no_drain.heap [0] 0,
      (resource_at example_state_no_drain.heap ptr).isFinite = true) ∧
    (FloatVal.sum
        ((get_all_connected_synapses example_state_no_drain.heap [0] 0).dedup.map fun ptr =>
          resource_at (renormalize_resource [0] example_state_no_drain 100).heap ptr -
            resource_at example_state_no_drain.heap ptr) = FloatVal.fin 8 ∧
    ((renormalize_resource [0] example_state_no_drain 100).population[0]?).map
        Neuron.free_synaptic_resource = some (FloatVal.fin 0)) :=
  ⟨rfl, example_no_drain_processed.1, example_no_drain_processed.2, rfl, rfl,
    by rw [example_no_drain_connected]; decide, example_no_drain_finite,
    renormalize_resource_conserves [0] example_state_no_drain 100 0 example_neuron_no_drain 8
      rfl example_no_drain_processed.1 example_no_drain_processed.2 rfl rfl
      (by rw [example_no_drain_connected]; decide) example_no_drain_finite⟩

/-- C7: let neuron `i` pass both skip tests of `renormalize_resource`. Then every
synapse connected to `i` keeps its own bounds `w_min`, `w_max`; its synaptic
resource after the pass is the resource of before the pass with the share
`free_synaptic_resource / (n + drain)` added, once for each occurrence of its
projection among the working projections (at least once, and exactly once,
giving `old + share`, when the working projections are distinct); and its
weight after the pass is `w_min + (w_max - w_min) * s / ((w_max - w_min) + s)`
with `s = max(r, 0)`, where `r` is that resource after the pass, with the share
added, not the resource of before the pass. -/
theorem renormalize_resource_weight (working_projections : List Nat) (state : NetState)
    (step : Nat) (i : Nat) (neuron : Neuron) (ptr : SynapsePtr)
    (hneuron : state.population[i]? = some neuron)
    (hperiod : in_isi_period neuron step = false)
    (hthreshold : below_threshold neuron = false)
    (hptr : ptr ∈ get_all_connected_synapses state.heap working_projections i) :
    ∃ old new,
      read_params state.heap ptr = some old ∧
      read_params (renormalize_resource working_projections state step).heap ptr = some new ∧
      new.rule.w_min = old.rule.w_min ∧
      new.rule.w_max = old.rule.w_max ∧
      1 ≤ working_projections.count ptr.1 ∧
      new.rule.synaptic_resource =
        ((add_resource
            (neuron.free_synaptic_resource /
              (FloatVal.ofNat
                  (get_all_connected_synapses state.heap working_projections i).length +
                neuron.resource_drain_coefficient)))^[working_projections.count ptr.1]
          old).rule.synaptic_resource ∧
      new.weight =
        new.rule.w_min +
          (new.rule.w_max - new.rule.w_min) *
              FloatVal.std_max new.rule.synaptic_resource (FloatVal.fin 0) /
            ((new.rule.w_max - new.rule.w_min) +
              FloatVal.std_max new.rule.synaptic_resource (FloatVal.fin 0)) ∧
      (working_projections.Nodup →
        new.rule.synaptic_resource =
          old.rule.synaptic_resource +
            neuron.free_synaptic_resource /
              (FloatVal.ofNat
                  (get_all_connected_synapses state.heap working_projections i).length +
                neuron.resource_drain_coefficient) ∧
        new.weight =
          old.rule.w_min +
            (old.rule.w_max - old.rule.w_min) *
                FloatVal.std_max
                  (old.rule.synaptic_resource +
                    neuron.free_synaptic_resource /
                      (FloatVal.ofNat
                          (get_all_connected_synapses state.heap working_projections
                            i).length +
                        neuron.resource_drain_coefficient))
                  (FloatVal.fin 0) /
              ((old.rule.w_max - old.rule.w_min) +
                FloatVal.std_max
                  (old.rule.synaptic_resource +
                    neuron.free_synaptic_resource /
                      (FloatVal.ofNat
                          (get_all_connected_synapses state.heap working_projections
                            i).length +
                        neuron.resource_drain_coefficient))
                  (FloatVal.fin 0))) := by
  have hskip := is_skipped_false neuron step hperiod hthreshold
  obtain ⟨old, hold, hcount, hnew⟩ :=
    read_params_renormalize_processed working_projections state step i neuron ptr hneuron hskip
      hptr
  have hnew2 : renormalized_params (working_projections.count ptr.1)
      (add_resource_value state.heap working_projections neuron i) old =
      recalculate_weight
        ((add_resource (add_resource_value state.heap working_projections neuron i))^[
          working_projections.count ptr.1] old) := by
    unfold renormalized_params
    rw [recalculate_weight_iterate _ hcount]
  rw [hnew2] at hnew
  refine ⟨old, _, hold, hnew, ?_, ?_, hcount, rfl, rfl, ?_⟩
  · rw [recalculate_weight_rule]
    exact (add_resource_iterate_rule _ _ _).1
  · rw [recalculate_weight_rule]
    exact (add_resource_iterate_rule _ _ _).2
  · intro hdistinct
    have hone : working_projections.count ptr.1 = 1 := by
      have := List.nodup_iff_count_le_one.1 hdistinct ptr.1
      omega
    rw [hone]
    exact ⟨rfl, rfl⟩

theorem example_state_share :
    add_resource_value example_state.heap [0] example_neuron 0 = FloatVal.fin 2 := by
  unfold add_resource_value
  rw [example_state_connected]
  simp only [example_neuron, List.length_cons, List.length_nil, FloatVal.ofNat_eq,
    FloatVal.fin_add]
  rw [FloatVal.fin_div _ _ (by norm_num)]
  norm_num

theorem example_state_third_synapse :
    read_params (renormalize_resource [0] example_state 100).heap (0, 2) =
      some
        { weight := FloatVal.fin (47 / 70)
          rule :=
            { synaptic_resource := FloatVal.fin 2
              w_min := FloatVal.fin (1 / 10)
              w_max := FloatVal.fin (9 / 10)
              last_spike_step := 0 } } := by
  obtain ⟨old, hold, hnew⟩ :=
    read_params_renormalize_distinct [0] example_state 100 0 example_neuron (0, 2) (by decide)
      rfl (is_skipped_false _ _ example_neuron_processed.1 example_neuron_processed.2)
      (by rw [example_state_connected]; decide)
  have hold2 : read_params example_state.heap (0, 2) =
      some (example_synapse 0 (1 / 10) (9 / 10) 0).params := rfl
  rw [hold2] at hold
  cases hold
  rw [hnew, example_state_share]
  have hres : (add_resource (fin 2) (example_synapse 0 (1 / 10) (9 / 10) 0).params) =
      { weight := FloatVal.fin 0
        rule :=
          { synaptic_resource := FloatVal.fin 2
            w_min := FloatVal.fin (1 / 10)
            w_max := FloatVal.fin (9 / 10)
            last_spike_step := 0 } } := by
    simp only [add_resource, example_synapse, FloatVal.fin_add]
    norm_num
  rw [hres]
  have hw := recalculate_weight_fin
    { weight := FloatVal.fin 0
      rule :=
        { synaptic_resource := FloatVal.fin 2
          w_min := FloatVal.fin (1 / 10)
          w_max := FloatVal.fin (9 / 10)
          last_spike_step := 0 } } (1 / 10) (9 / 10) 2 rfl rfl rfl (by norm_num)
  have hr := recalculate_weight_rule
    { weight := FloatVal.fin 0
      rule :=
        { synaptic_resource := FloatVal.fin 2
          w_min := FloatVal.fin (1 / 10)
          w_max := FloatVal.fin (9 / 10)
          last_spike_step := 0 } }
  have hval :
      (1 / 10 + (9 / 10 - 1 / 10) * Max.max (2 : ℚ) 0 /
        (9 / 10 - 1 / 10 + Max.max (2 : ℚ) 0)) = 47 / 70 := by
    rw [max_eq_left (by norm_num : (0 : ℚ) ≤ 2)]
    norm_num
  rw [hval] at hw
  generalize recalculate_weight
    { weight := FloatVal.fin 0
      rule :=
        { synaptic_resource := FloatVal.fin 2
          w_min := FloatVal.fin (1 / 10)
          w_max := FloatVal.fin (9 / 10)
          last_spike_step := 0 } } = result at hw hr
  cases result
  simp only at hw hr
  rw [hw, hr]

/-- The third synapse of the example: the pass raises its resource from `0` to
`2` and writes the weight `47/70`, the formula at resource `2`; the formula at
the resource `0` of before the pass would give `1/10`. -/
theorem renormalize_resource_weight_witness :
    example_state.population[0]? = some example_neuron ∧
    in_isi_period example_neuron 100 = false ∧
    below_threshold example_neuron = false ∧
    ((0, 2) : SynapsePtr) ∈ get_all_connected_synapses example_state.heap [0] 0 ∧
    read_params example_state.heap (0, 2) =
      some (example_synapse 0 (1 / 10) (9 / 10) 0).params ∧
    read_params (renormalize_resource [0] example_state 100).heap (0, 2) =
      some
        { weight := FloatVal.fin (47 / 70)
          rule :=
            { synaptic_resource := FloatVal.fin 2
              w_min := FloatVal.fin (1 / 10)
              w_max := FloatVal.fin (9 / 10)
              last_spike_step := 0 } } ∧
    ∃ old new,
      read_params example_state.heap (0, 2) = some old ∧
      read_params (renormalize_resource [0] example_state 100).heap (0, 2) = some new ∧
      new.rule.w_min = old.rule.w_min ∧
      new.rule.w_max = old.rule.w_max ∧
      1 ≤ ([0] : List Nat).count ((0, 2) : SynapsePtr).1 ∧
      new.rule.synaptic_resource =
        ((add_resource
            (example_neuron.free_synaptic_resource /
              (FloatVal.ofNat (get_all_connected_synapses example_state.heap [0] 0).length +
                example_neuron.resource_drain_coefficient)))^[
            ([0] : List Nat).count ((0, 2) : SynapsePtr).1]
          old).rule.synaptic_resource ∧
      new.weight =
        new.rule.w_min +
          (new.rule.w_max - new.rule.w_min) *
              FloatVal.std_max new.rule.synaptic_resource (FloatVal.fin 0) /
            ((new.rule.w_max - new.rule.w_min) +
              FloatVal.std_max new.rule.synaptic_resource (FloatVal.fin 0)) ∧
      (([0] : List Nat).Nodup →
        new.rule.synaptic_resource =
          old.rule.synaptic_resource +
            example_neuron.free_synaptic_resource /
              (FloatVal.ofNat (get_all_connected_synapses example_state.heap [0] 0).length +
                example_neuron.resource_drain_coefficient) ∧
        new.weight =
          old.rule.w_min +
            (old.rule.w_max - old.rule.w_min) *
                FloatVal.std_max
                  (old.rule.synaptic_resource +
                    example_neuron.free_synaptic_resource /
                      (FloatVal.ofNat
                          (get_all_connected_synapses example_state.heap [0] 0).length +
                        example_neuron.resource_drain_coefficient))
                  (FloatVal.fin 0) /
              ((old.rule.w_max - old.rule.w_min) +
                FloatVal.std_max
                  (old.rule.synaptic_resource +
                    example_neuron.free_synaptic_resource /
                      (FloatVal.ofNat
                          (get_all_connected_synapses example_state.heap [0] 0).length +
                        example_neuron.resource_drain_coefficient))
                  (FloatVal.fin 0))) :=
  ⟨rfl, example_neuron_processed.1, example_neuron_processed.2,
    by rw [example_state_connected]; decide, rfl, example_state_third_synapse,
    renormalize_resource_weight [0] example_state 100 0 example_neuron (0, 2) rfl
      example_neuron_processed.1 example_neuron_processed.2
      (by rw [example_state_connected]; decide)⟩

/-- C10: a neuron that `renormalize_resource` skips, because it is still in its
ISI period (`step - last_step ≤ isi_max` and the status is not `is_forced`) or
because its absolute free resource is below the threshold, is the same after the
pass as before it, and so are the parameters (synaptic resource and weight
included) of every synapse connected to it. -/
theorem renormalize_resource_skipped (working_projections : List Nat) (state : NetState)
    (step : Nat) (i : Nat) (neuron : Neuron)
    (hneuron : state.population[i]? = some neuron)
    (hskip : in_isi_period neuron step = true ∨ below_threshold neuron = true) :
    (renormalize_resource working_projections state step).population[i]? = some neuron ∧
    ∀ ptr ∈ get_all_connected_synapses state.heap working_projections i,
      read_params (renormalize_resource working_projections state step).heap ptr =
        read_params state.heap ptr := by
  have hs := is_skipped_true neuron step hskip
  constructor
  · rw [renormalize_resource_population, hneuron]
    simp [renormalized_neuron, hs]
  · intro ptr hptr
    exact read_params_renormalize_skipped working_projections state step i neuron ptr hneuron
      hs hptr

/-- The example neuron at step 3 is still within `isi_max = 5` steps of its last
spike at step 0, so the pass leaves it and its synapses as they are. -/
theorem renormalize_resource_skipped_witness :
    example_state.population[0]? = some example_neuron ∧
    (in_isi_period example_neuron 3 = true ∨ below_threshold example_neuron = true) ∧
    ((renormalize_resource [0] example_state 3).population[0]? = some example_neuron ∧
    ∀ ptr ∈ get_all_connected_synapses example_state.heap [0] 0,
      read_params (renormalize_resource [0] example_state 3).heap ptr =
        read_params example_state.heap ptr) :=
  ⟨rfl, Or.inl (by decide),
    renormalize_resource_skipped [0] example_state 3 0 example_neuron rfl (Or.inl (by decide))⟩

/-! ## `recalculate_synapse_weights` -/

/-- C8, as the code has it: for a synapse with `w_min < w_max` and any finite
synaptic resource, the weight that `recalculate_synapse_weights` writes is
finite and satisfies `w_min ≤ weight < w_max`. -/
theorem recalculate_synapse_weights_bounds (heap : Heap) (synapse_params : List SynapsePtr)
    (ptr : SynapsePtr) (old : STDPSynapseParams) (w_min w_max resource : ℚ)
    (hptr : ptr ∈ synapse_params)
    (hold : read_params heap ptr = some old)
    (hmin : old.rule.w_min = FloatVal.fin w_min)
    (hmax : old.rule.w_max = FloatVal.fin w_max)
    (hres : old.rule.synaptic_resource = FloatVal.fin resource)
    (hlt : w_min < w_max) :
    ∃ weight : ℚ,
      (read_params (recalculate_synapse_weights heap synapse_params) ptr).map
          STDPSynapseParams.weight = some (FloatVal.fin weight) ∧
      w_min ≤ weight ∧ weight < w_max := by
  have hs : 0 ≤ Max.max resource 0 := le_max_right _ _
  have hne : w_max - w_min + Max.max resource 0 ≠ 0 := by
    have : 0 < w_max - w_min := by linarith
    linarith
  refine ⟨_, ?_, weight_formula_bounds w_min w_max resource hlt⟩
  rw [read_params_recalculate heap synapse_params ptr hptr, hold, Option.map_some',
    Option.map_some', recalculate_weight_fin old w_min w_max resource hmin hmax hres hne]

theorem single_synapse_heap_read (resource w_min w_max : ℚ) :
    read_params (single_synapse_heap resource w_min w_max) (0, 0) =
      some (example_synapse resource w_min w_max 0).params := rfl

/-- Bounds `1/10 < 9/10` and resource `1000`. -/
theorem recalculate_synapse_weights_bounds_witness :
    ((0, 0) : SynapsePtr) ∈ [((0, 0) : SynapsePtr)] ∧
    read_params (single_synapse_heap 1000 (1 / 10) (9 / 10)) (0, 0) =
      some (example_synapse 1000 (1 / 10) (9 / 10) 0).params ∧
    ((1 : ℚ) / 10 < 9 / 10) ∧
    ∃ weight : ℚ,
      (read_params
          (recalculate_synapse_weights (single_synapse_heap 1000 (1 / 10) (9 / 10)) [(0, 0)])
          (0, 0)).map STDPSynapseParams.weight = some (FloatVal.fin weight) ∧
      (1 : ℚ) / 10 ≤ weight ∧ weight < 9 / 10 :=
  ⟨by decide, rfl, by norm_num,
    recalculate_synapse_weights_bounds (single_synapse_heap 1000 (1 / 10) (9 / 10)) [(0, 0)]
      (0, 0) (example_synapse 1000 (1 / 10) (9 / 10) 0).params (1 / 10) (9 / 10) 1000
      (by decide) rfl rfl rfl rfl (by norm_num)⟩

/-- C8 fails when the bounds are equal: with `w_min = w_max = 1/2` (so
`w_min ≤ w_max` holds) and synaptic resource `1`, the weight written is
`1/2 + 0 * 1 / (0 + 1) = 1/2`, which is not below `w_max`. -/
theorem recalculate_synapse_weights_equal_bounds :
    (1 / 2 : ℚ) ≤ 1 / 2 ∧
    (read_params
        (recalculate_synapse_weights (single_synapse_heap 1 (1 / 2) (1 / 2)) [(0, 0)])
        (0, 0)).map STDPSynapseParams.weight = some (FloatVal.fin (1 / 2)) ∧
    FloatVal.lt (FloatVal.fin (1 / 2)) (FloatVal.fin (1 / 2)) = false := by
  refine ⟨le_refl _, ?_, ?_⟩
  · rw [read_params_recalculate _ _ _ (by decide), single_synapse_heap_read, Option.map_some',
      Option.map_some',
      recalculate_weight_fin _ (1 / 2) (1 / 2) 1 rfl rfl rfl (by norm_num)]
    norm_num
  · simp [FloatVal.lt]

/-- C13: with `process_spiking_neurons` and `do_dopamine_plasticity` taken as
arbitrary state transformers `S` and `D`, `do_STDP_resource_plasticity` with a
spike message gives `renormalize_resource (D (S state))`, and without a message
gives `renormalize_resource (D state)`: `S` is not run, and the order spike
update, dopamine, renormalization is fixed. -/
theorem do_STDP_resource_plasticity_order
    (S : SpikeMessage → List Nat → NetState → Nat → NetState)
    (D : List Nat → NetState → Nat → NetState)
    (state : NetState) (working_projections : List Nat) (step : Nat) :
    (∀ message : SpikeMessage,
      do_STDP_resource_plasticity S D state working_projections (some message) step =
        renormalize_resource working_projections
          (D working_projections (S message working_projections state step) step) step) ∧
    do_STDP_resource_plasticity S D state working_projections none step =
      renormalize_resource working_projections (D working_projections state step) step :=
  ⟨fun _ => rfl, rfl⟩

/-! ## `update_isi` outside the enumeration -/

/-- C14, as the code has it: for a neuron that is not being forced and whose
status is outside the four defined values, `update_isi` throws the error
"Not supported ISI status." and leaves every field of the neuron as it was. -/
theorem update_isi_unsupported (neuron : Neuron) (step : Nat) (raw : Nat)
    (hforced : neuron.is_being_forced = false)
    (hstatus : neuron.isi_status = ISIPeriodType.undefined raw) :
    update_isi neuron step = (neuron, Except.error "Not supported ISI status.") := by
  simp [update_isi, hforced, hstatus]

/-- An unforced neuron with status value 7. -/
theorem update_isi_unsupported_witness :
    example_neuron_undefined.is_being_forced = false ∧
    example_neuron_undefined.isi_status = ISIPeriodType.undefined 7 ∧
    update_isi example_neuron_undefined 3 =
      (example_neuron_undefined, Except.error "Not supported ISI status.") :=
  ⟨rfl, rfl, update_isi_unsupported example_neuron_undefined 3 7 rfl rfl⟩

/-- C14 fails for a forced neuron: with `is_being_forced` set and a status
outside the enumeration, `update_isi` returns `is_forced` without an error and
overwrites the status. -/
theorem update_isi_forced_undefined :
    example_neuron_forced_undefined.isi_status = ISIPeriodType.undefined 7 ∧
    (update_isi example_neuron_forced_undefined 3).2 = Except.ok is_forced ∧
    (update_isi example_neuron_forced_undefined 3).1.isi_status = is_forced := by
  refine ⟨rfl, rfl, rfl⟩

/-! ## Weight update hooks -/

/-- C15: `init_synapse`, in `WeightUpdateSTDP` and in `WeightUpdateStdpMp` for the
resource rule, sets `rule.last_spike_step` to `step` and leaves the synaptic
resource, `w_min`, `w_max` and the weight as they were; `init_projection`,
`init_projection_part`, `modify_weights` and `modify_weights_part` change
nothing. -/
theorem weight_update_hooks (params : STDPSynapseParams) (projection : Projection)
    (messages : List SpikeMessage) (message_data : List (Nat × Nat)) (step : Nat) :
    WeightUpdateSTDP.init_synapse params step =
      { weight := params.weight
        rule :=
          { synaptic_resource := params.rule.synaptic_resource
            w_min := params.rule.w_min
            w_max := params.rule.w_max
            last_spike_step := step } } ∧
    WeightUpdateStdpMp.init_synapse params step =
      { weight := params.weight
        rule :=
          { synaptic_resource := params.rule.synaptic_resource
            w_min := params.rule.w_min
            w_max := params.rule.w_max
            last_spike_step := step } } ∧
    WeightUpdateSTDP.init_projection projection messages step = projection ∧
    WeightUpdateStdpMp.init_projection_part projection message_data step = projection ∧
    WeightUpdateSTDP.modify_weights projection = projection ∧
    WeightUpdateStdpMp.modify_weights_part projection = projection :=
  ⟨rfl, rfl, rfl, rfl, rfl, rfl⟩

/-! ## The gap test under increasing steps -/

/-- C17: let the neuron not be forced, its status be one of the four defined
values, `isi_max < 2^32`, and let `step` come after `last_step` with
`step - last_step ≤ 2^64 - 2^32`. Then `update_isi` returns
`period_started` and that is the new status: `last_step - step` wraps around to
at least `2^32`, so `period_started` does not advance to `period_continued` and
`period_continued` falls back to `period_started`. -/
theorem update_isi_increasing_steps (neuron : Neuron) (step : Nat)
    (hforced : neuron.is_being_forced = false)
    (hstatus : neuron.isi_status = not_in_period ∨ neuron.isi_status = is_forced ∨
      neuron.isi_status = period_started ∨ neuron.isi_status = period_continued)
    (hmax : neuron.isi_max < 2 ^ 32)
    (hlast : neuron.last_step < step)
    (hgap : step - neuron.last_step ≤ 2 ^ 64 - 2 ^ 32) :
    (update_isi neuron step).2 = Except.ok period_started ∧
    (update_isi neuron step).1.isi_status = period_started ∧
    ¬ sub_u64 neuron.last_step step < neuron.isi_max := by
  have hwrap : ¬ sub_u64 neuron.last_step step < neuron.isi_max := by
    unfold sub_u64 U64
    norm_num at hmax hgap ⊢
    omega
  have hge : sub_u64 neuron.last_step step ≥ neuron.isi_max := by omega
  refine ⟨?_, ?_, hwrap⟩
  · rcases hstatus with h | h | h | h <;> simp [update_isi, hforced, h, hwrap, hge]
  · rcases hstatus with h | h | h | h <;> simp [update_isi, hforced, h, hwrap, hge]

/-- A neuron in a continued period, last spike at step 1, spiking again at step 2
with `isi_max = 5`. -/
theorem update_isi_increasing_steps_witness :
    ({ example_neuron with isi_status := period_continued, last_step := 1 } :
      Neuron).is_being_forced = false ∧
    ((update_isi { example_neuron with isi_status := period_continued, last_step := 1 } 2).2 =
        Except.ok period_started ∧
      (update_isi
        { example_neuron with isi_status := period_continued, last_step := 1 } 2).1.isi_status =
        period_started ∧
      ¬ sub_u64
          ({ example_neuron with isi_status := period_continued, last_step := 1 } :
            Neuron).last_step 2 <
        ({ example_neuron with isi_status := period_continued, last_step := 1 } :
          Neuron).isi_max) :=
  ⟨rfl,
    update_isi_increasing_steps
      { example_neuron with isi_status := period_continued, last_step := 1 } 2 rfl
      (Or.inr (Or.inr (Or.inr rfl))) (by decide) (by decide) (by decide)⟩

/-! ## `is_point_in_interval` -/

/-- C18: on `uint64_t` values `is_point_in_interval` is the closed interval test
with wraparound: it is true exactly when `(point - begin) mod 2^64` is at most
`(end - begin) mod 2^64`. When `begin ≤ end` that is `begin ≤ point ≤ end`, and
when `end < begin` it is `point ≥ begin` or `point ≤ end`. -/
theorem is_point_in_interval_spec (interval_begin interval_end point : Nat)
    (hbegin : interval_begin < 2 ^ 64) (hend : interval_end < 2 ^ 64)
    (hpoint : point < 2 ^ 64) :
    (is_point_in_interval interval_begin interval_end point = true ↔
      ((point : ℤ) - (interval_begin : ℤ)) % 2 ^ 64 ≤
        ((interval_end : ℤ) - (interval_begin : ℤ)) % 2 ^ 64) ∧
    (interval_begin ≤ interval_end →
      (is_point_in_interval interval_begin interval_end point = true ↔
        interval_begin ≤ point ∧ point ≤ interval_end)) ∧
    (interval_end < interval_begin →
      (is_point_in_interval interval_begin interval_end point = true ↔
        point ≥ interval_begin ∨ point ≤ interval_end)) := by
  refine ⟨?_, ?_, ?_⟩
  · simp only [is_point_in_interval, Bool.or_eq_true, Bool.and_eq_true, decide_eq_true_eq]
    norm_num at hbegin hend hpoint ⊢
    omega
  · intro h
    simp only [is_point_in_interval, Bool.or_eq_true, Bool.and_eq_true, decide_eq_true_eq]
    omega
  · intro h
    simp only [is_point_in_interval, Bool.or_eq_true, Bool.and_eq_true, decide_eq_true_eq]
    omega

/-- The interval from `2^64 - 2` to `3`, which wraps around, and the point `1`. -/
theorem is_point_in_interval_spec_witness :
    (18446744073709551614 < 2 ^ 64) ∧ (3 < 2 ^ 64) ∧ (1 < 2 ^ 64) ∧
    is_point_in_interval 18446744073709551614 3 1 = true ∧
    ((is_point_in_interval 18446744073709551614 3 1 = true ↔
      (((1 : Nat) : ℤ) - ((18446744073709551614 : Nat) : ℤ)) % 2 ^ 64 ≤
        (((3 : Nat) : ℤ) - ((18446744073709551614 : Nat) : ℤ)) % 2 ^ 64) ∧
    (18446744073709551614 ≤ 3 →
      (is_point_in_interval 18446744073709551614 3 1 = true ↔
        18446744073709551614 ≤ 1 ∧ 1 ≤ 3)) ∧
    (3 < 18446744073709551614 →
      (is_point_in_interval 18446744073709551614 3 1 = true ↔
        1 ≥ 18446744073709551614 ∨ 1 ≤ 3))) :=
  ⟨by decide, by decide, by decide, by decide,
    is_point_in_interval_spec 18446744073709551614 3 1 (by decide) (by decide) (by decide)⟩

/-! ## `find_projection_by_type_and_postsynaptic` -/

theorem foldl_range_filter (p : Nat → Bool) (k : Nat) :
    (List.range k).foldl (fun result i => if p i then result ++ [i] else result) [] =
      (List.range k).filter p := by
  induction k with
  | zero => rfl
  | succ k ih =>
    rw [List.range_succ, List.foldl_append, ih, List.filter_append]
    by_cases h : p k <;> simp [h]

theorem filterMap_range_filter {α : Type} (q : α → Bool) (l : List α) :
    ((List.range l.length).filter fun i => holds_on q l[i]?).filterMap (fun i => l[i]?) =
      l.filter q := by
  induction l using List.reverseRecOn with
  | nil => rfl
  | append_singleton l x ih =>
    rw [List.length_append, List.length_singleton, List.range_succ, List.filter_append,
      List.filterMap_append, List.filter_append]
    have h1 : (List.range l.length).filter (fun i => holds_on q (l ++ [x])[i]?) =
        (List.range l.length).filter (fun i => holds_on q l[i]?) := by
      apply List.filter_congr
      intro i hi
      rw [List.getElem?_append_left (List.mem_range.1 hi)]
    have h2 : ∀ r : List Nat, (∀ i ∈ r, i < l.length) →
        r.filterMap (fun i => (l ++ [x])[i]?) = r.filterMap (fun i => l[i]?) := by
      intro r
      induction r with
      | nil => intro _; rfl
      | cons a rest ihr =>
        intro hr
        have ha : a < l.length := hr a (List.mem_cons_self _ _)
        rw [List.filterMap_cons, List.filterMap_cons, List.getElem?_append_left ha,
          ihr (fun i hi => hr i (List.mem_cons_of_mem _ hi))]
    rw [h1, h2 _ (fun i hi => List.mem_range.1 (List.mem_filter.1 hi).1), ih]
    congr 1
    have hx : (l ++ [x])[l.length]? = some x := by simp
    by_cases hq : q x <;> simp [List.filter_cons, hx, hq, holds_on]

theorem find_projection_eq_filter (type_index : Nat) (projections : List ProjectionVariant)
    (post_uid : Nat) (exclude_locked : Bool) :
    find_projection_by_type_and_postsynaptic type_index projections post_uid exclude_locked =
      (List.range projections.length).filter fun i =>
        holds_on (is_found type_index post_uid exclude_locked) projections[i]? := by
  unfold find_projection_by_type_and_postsynaptic
  rw [← foldl_range_filter]
  congr 1
  funext result position
  cases projections[position]? with
  | none => simp [holds_on]
  | some x => rfl

theorem is_found_iff (type_index : Nat) (post_uid : Nat) (exclude_locked : Bool)
    (x : ProjectionVariant) :
    is_found type_index post_uid exclude_locked x = true ↔
      x.index = type_index ∧ x.projection.postsynaptic_uid = post_uid ∧
        ¬ (exclude_locked = true ∧ x.projection.is_locked = true) := by
  unfold is_found
  by_cases h1 : x.index = type_index
  · by_cases h2 : x.projection.is_locked = true
    · by_cases h3 : exclude_locked = true <;> simp [h1, h2, h3]
    · simp [h1, h2]
  · simp [h1]

/-- C12: `find_projection_by_type_and_postsynaptic` returns pointers to exactly
the projections of the container that hold the synapse type asked for, have the
postsynaptic UID asked for, and are not both locked and excluded: the projections
pointed to are the container filtered by that predicate, in container order;
no pointer occurs twice; a position is returned if and only if its projection
satisfies the predicate. With `exclude_locked = false` a locked projection that
matches is returned. The function only reads the container. -/
theorem find_projection_by_type_and_postsynaptic_spec (type_index : Nat)
    (projections : List ProjectionVariant) (post_uid : Nat) (exclude_locked : Bool) :
    (find_projection_by_type_and_postsynaptic type_index projections post_uid
        exclude_locked).filterMap (fun position => projections[position]?) =
      projections.filter (fun x =>
        decide (x.index = type_index) && decide (x.projection.postsynaptic_uid = post_uid) &&
          !(exclude_locked && x.projection.is_locked)) ∧
    (find_projection_by_type_and_postsynaptic type_index projections post_uid
        exclude_locked).Pairwise (fun a b => a < b) ∧
    (find_projection_by_type_and_postsynaptic type_index projections post_uid
        exclude_locked).Nodup ∧
    (∀ position,
      position ∈ find_projection_by_type_and_postsynaptic type_index projections post_uid
          exclude_locked ↔
        ∃ x, projections[position]? = some x ∧ x.index = type_index ∧
          x.projection.postsynaptic_uid = post_uid ∧
          ¬ (exclude_locked = true ∧ x.projection.is_locked = true)) ∧
    (∀ position x, projections[position]? = some x → x.index = type_index →
      x.projection.postsynaptic_uid = post_uid → x.projection.is_locked = true →
      position ∈ find_projection_by_type_and_postsynaptic type_index projections post_uid
        false) := by
  have hmem : ∀ (excl : Bool) (position : Nat),
      position ∈ find_projection_by_type_and_postsynaptic type_index projections post_uid
          excl ↔
        ∃ x, projections[position]? = some x ∧ x.index = type_index ∧
          x.projection.postsynaptic_uid = post_uid ∧
          ¬ (excl = true ∧ x.projection.is_locked = true) := by
    intro excl position
    rw [find_projection_eq_filter, List.mem_filter, List.mem_range]
    constructor
    · rintro ⟨hlt, h⟩
      have hx : projections[position]? = some projections[position] :=
        List.getElem?_eq_getElem hlt
      rw [hx] at h
      exact ⟨_, hx, (is_found_iff _ _ _ _).1 h⟩
    · rintro ⟨x, hx, h⟩
      refine ⟨getElem?_some_lt _ _ _ hx, ?_⟩
      rw [hx]
      exact (is_found_iff _ _ _ _).2 h
  refine ⟨?_, ?_, ?_, hmem exclude_locked, ?_⟩
  · rw [find_projection_eq_filter]
    refine Eq.trans
      (filterMap_range_filter (is_found type_index post_uid exclude_locked) projections) ?_
    apply List.filter_congr
    intro x _
    rw [Bool.eq_iff_iff, is_found_iff]
    simp only [Bool.and_eq_true, decide_eq_true_eq, Bool.not_eq_true', Bool.and_eq_false_iff]
    constructor
    · rintro ⟨h1, h2, h3⟩
      refine ⟨⟨h1, h2⟩, ?_⟩
      by_cases he : exclude_locked = true
      · right
        by_contra hl
        exact h3 ⟨he, by simpa using hl⟩
      · left
        simpa using he
    · rintro ⟨⟨h1, h2⟩, h3⟩
      refine ⟨h1, h2, ?_⟩
      rintro ⟨he, hl⟩
      rcases h3 with h3 | h3
      · rw [he] at h3; cases h3
      · rw [hl] at h3; cases h3
  · rw [find_projection_eq_filter]
    exact List.Pairwise.filter _ (List.pairwise_lt_range _)
  · rw [find_projection_eq_filter]
    exact List.Nodup.filter _ (List.nodup_range _)
  · intro position x hx h1 h2 _
    exact (hmem false position).2 ⟨x, hx, h1, h2, by simp⟩

/-! ## Algebra of the weight recalculation -/

theorem recalculate_weight_iterate_idem (c : Nat) (x : STDPSynapseParams) :
    recalculate_weight^[c] (recalculate_weight^[c] x) = recalculate_weight^[c] x := by
  by_cases hc : 1 ≤ c
  · rw [recalculate_weight_iterate c hc, recalculate_weight_iterate c hc,
      recalculate_weight_idem]
  · have : c = 0 := by omega
    subst this
    rfl

theorem heap_ext (h1 h2 : Heap)
    (hfields : ∀ p, (h1 p).presynaptic_uid = (h2 p).presynaptic_uid ∧
      (h1 p).postsynaptic_uid = (h2 p).postsynaptic_uid ∧ (h1 p).is_locked = (h2 p).is_locked)
    (hsyn : ∀ p (j : Nat), (h1 p).synapses[j]? = (h2 p).synapses[j]?) : h1 = h2 := by
  funext p
  exact Projection.eq_of_fields _ _ (hfields p).1 (hfields p).2.1 (hfields p).2.2
    (List.ext_getElem? (hsyn p))

/-- C16: applying `recalculate_synapse_weights` twice to the same vector of
synapse pointers leaves memory exactly as applying it once, and the
recalculation never changes the rule part of a synapse (synaptic resource,
`w_min`, `w_max`, last spike step): the resource is not clamped in storage. -/
theorem recalculate_synapse_weights_idempotent (heap : Heap)
    (synapse_params : List SynapsePtr) :
    recalculate_synapse_weights (recalculate_synapse_weights heap synapse_params)
        synapse_params = recalculate_synapse_weights heap synapse_params ∧
    ∀ ptr, (read_params (recalculate_synapse_weights heap synapse_params) ptr).map
        STDPSynapseParams.rule = (read_params heap ptr).map STDPSynapseParams.rule := by
  constructor
  · apply heap_ext
    · intro p
      unfold recalculate_synapse_weights
      obtain ⟨h1, h2, h3⟩ := foldl_modify_fields recalculate_weight synapse_params
        (synapse_params.foldl (fun h q => modify_params h q recalculate_weight) heap) p
      exact ⟨h1, h2, h3⟩
    · intro p j
      unfold recalculate_synapse_weights
      rw [foldl_modify_synapses_getElem?, foldl_modify_synapses_getElem?, Option.map_map]
      congr 1
      funext s
      simp only [Function.comp_apply, on_params_iterate]
      unfold on_params
      simp only [recalculate_weight_iterate_idem]
  · intro ptr
    unfold recalculate_synapse_weights
    rw [read_params_foldl_modify, Option.map_map]
    congr 1
    funext x
    simp only [Function.comp_apply]
    generalize synapse_params.count ptr = c
    induction c with
    | zero => rfl
    | succ c ih => rw [Function.iterate_succ_apply', recalculate_weight_rule, ih]

theorem weight_formula_mono (a b r1 r2 : ℚ) (hlt : a < b) (hle : r1 ≤ r2) :
    a + (b - a) * max r1 0 / (b - a + max r1 0) ≤
      a + (b - a) * max r2 0 / (b - a + max r2 0) := by
  have hd : 0 < b - a := by linarith
  have hs1 : 0 ≤ max r1 0 := le_max_right _ _
  have hs2 : 0 ≤ max r2 0 := le_max_right _ _
  have hs : max r1 0 ≤ max r2 0 := max_le_max hle (le_refl _)
  have hp1 : 0 < b - a + max r1 0 := by linarith
  have hp2 : 0 < b - a + max r2 0 := by linarith
  have : (b - a) * max r1 0 / (b - a + max r1 0) ≤ (b - a) * max r2 0 / (b - a + max r2 0) := by
    rw [div_le_div_iff₀ hp1 hp2]
    nlinarith [mul_le_mul_of_nonneg_left hs (mul_nonneg hd.le hd.le)]
  linarith

theorem weight_formula_strict_mono (a b r1 r2 : ℚ) (hlt : a < b) (h0 : 0 ≤ r1)
    (hr : r1 < r2) :
    a + (b - a) * max r1 0 / (b - a + max r1 0) <
      a + (b - a) * max r2 0 / (b - a + max r2 0) := by
  have hd : 0 < b - a := by linarith
  have e1 : max r1 0 = r1 := max_eq_left h0
  have e2 : max r2 0 = r2 := max_eq_left (by linarith)
  rw [e1, e2]
  have hp1 : 0 < b - a + r1 := by linarith
  have hp2 : 0 < b - a + r2 := by linarith
  have : (b - a) * r1 / (b - a + r1) < (b - a) * r2 / (b - a + r2) := by
    rw [div_lt_div_iff₀ hp1 hp2]
    nlinarith [mul_lt_mul_of_pos_left hr (mul_pos hd hd)]
  linarith

/-- C20: for two synapses with the same finite bounds `w_min < w_max` and finite
synaptic resources `r1 ≤ r2`, the weights `recalculate_synapse_weights` writes
are finite and ordered the same way, the first at most the second, and
strictly below it when `0 ≤ r1 < r2`. -/
theorem recalculate_synapse_weights_monotone (heap : Heap) (synapse_params : List SynapsePtr)
    (ptr1 ptr2 : SynapsePtr) (old1 old2 : STDPSynapseParams) (w_min w_max r1 r2 : ℚ)
    (hptr1 : ptr1 ∈ synapse_params) (hptr2 : ptr2 ∈ synapse_params)
    (hold1 : read_params heap ptr1 = some old1) (hold2 : read_params heap ptr2 = some old2)
    (hmin1 : old1.rule.w_min = FloatVal.fin w_min) (hmax1 : old1.rule.w_max = FloatVal.fin w_max)
    (hmin2 : old2.rule.w_min = FloatVal.fin w_min) (hmax2 : old2.rule.w_max = FloatVal.fin w_max)
    (hres1 : old1.rule.synaptic_resource = FloatVal.fin r1)
    (hres2 : old2.rule.synaptic_resource = FloatVal.fin r2)
    (hlt : w_min < w_max) (hle : r1 ≤ r2) :
    ∃ weight1 weight2 : ℚ,
      (read_params (recalculate_synapse_weights heap synapse_params) ptr1).map
          STDPSynapseParams.weight = some (FloatVal.fin weight1) ∧
      (read_params (recalculate_synapse_weights heap synapse_params) ptr2).map
          STDPSynapseParams.weight = some (FloatVal.fin weight2) ∧
      weight1 ≤ weight2 ∧ (0 ≤ r1 → r1 < r2 → weight1 < weight2) := by
  have hd : 0 < w_max - w_min := by linarith
  have hne1 : w_max - w_min + Max.max r1 0 ≠ 0 := by
    have : 0 ≤ Max.max r1 0 := le_max_right _ _
    linarith
  have hne2 : w_max - w_min + Max.max r2 0 ≠ 0 := by
    have : 0 ≤ Max.max r2 0 := le_max_right _ _
    linarith
  refine ⟨_, _, ?_, ?_, weight_formula_mono w_min w_max r1 r2 hlt hle,
    fun h0 hr => weight_formula_strict_mono w_min w_max r1 r2 hlt h0 hr⟩
  · rw [read_params_recalculate heap synapse_params ptr1 hptr1, hold1, Option.map_some',
      Option.map_some', recalculate_weight_fin old1 w_min w_max r1 hmin1 hmax1 hres1 hne1]
  · rw [read_params_recalculate heap synapse_params ptr2 hptr2, hold2, Option.map_some',
      Option.map_some', recalculate_weight_fin old2 w_min w_max r2 hmin2 hmax2 hres2 hne2]

/-- The first two synapses of the example projection, with resources `1 < 2`. -/
theorem recalculate_synapse_weights_monotone_witness :
    ((0, 0) : SynapsePtr) ∈ [((0, 0) : SynapsePtr), (0, 1)] ∧
    ((0, 1) : SynapsePtr) ∈ [((0, 0) : SynapsePtr), (0, 1)] ∧
    ((1 : ℚ) / 10 < 9 / 10) ∧ ((1 : ℚ) ≤ 2) ∧
    ∃ weight1 weight2 : ℚ,
      (read_params (recalculate_synapse_weights example_state.heap [(0, 0), (0, 1)])
          (0, 0)).map STDPSynapseParams.weight = some (FloatVal.fin weight1) ∧
      (read_params (recalculate_synapse_weights example_state.heap [(0, 0), (0, 1)])
          (0, 1)).map STDPSynapseParams.weight = some (FloatVal.fin weight2) ∧
      weight1 ≤ weight2 ∧ ((0 : ℚ) ≤ 1 → (1 : ℚ) < 2 → weight1 < weight2) :=
  ⟨by decide, by decide, by norm_num, by norm_num,
    recalculate_synapse_weights_monotone example_state.heap [(0, 0), (0, 1)] (0, 0) (0, 1)
      (example_synapse 1 (1 / 10) (9 / 10) 0).params
      (example_synapse 2 (1 / 10) (9 / 10) 0).params (1 / 10) (9 / 10) 1 2
      (by decide) (by decide) rfl rfl rfl rfl rfl rfl rfl rfl (by norm_num) (by norm_num)⟩

/-! ## Renormalization without connected synapses -/

theorem renormalize_resource_neuron (w : List Nat) (s0 : NetState) (step i : Nat)
    (neuron : Neuron) (hneuron : s0.population[i]? = some neuron)
    (hskip : is_skipped neuron step = false) :
    (renormalize_resource w s0 step).population[i]? =
      some { neuron with free_synaptic_resource := FloatVal.fin 0 } := by
  rw [renormalize_resource_population, hneuron]
  have hlen := getElem?_some_lt _ _ _ hneuron
  simp [renormalized_neuron, hlen, hskip]

theorem renormalize_neuron_no_synapses (w : List Nat) (step : Nat) (s : NetState) (k : Nat)
    (neuron : Neuron) (hk : s.population[k]? = some neuron)
    (hs : is_skipped neuron step = false)
    (hnone : get_all_connected_synapses s.heap w k = [])
    (hdrain : neuron.resource_drain_coefficient = FloatVal.fin 0) :
    renormalize_neuron w step s k =
      { population :=
          s.population.set k { neuron with free_synaptic_resource := FloatVal.fin 0 }
        heap :=
          recalculate_synapse_weights
            (([] : List SynapsePtr).foldl
              (fun h synapse =>
                modify_params h synapse
                  (add_resource (neuron.free_synaptic_resource / FloatVal.fin 0)))
              s.heap)
            [] } := by
  unfold renormalize_neuron
  rw [hk]
  simp only [is_skipped, Bool.or_eq_false_iff] at hs
  simp only [hs.1, hs.2, Bool.false_eq_true, if_false, hnone, hdrain, List.length_nil,
    FloatVal.ofNat_eq, FloatVal.fin_add]
  norm_num

theorem renormalize_resource_unconnected (w : List Nat) (s0 : NetState) (step i : Nat)
    (hnone : get_all_connected_synapses s0.heap w i = [])
    (p j : Nat) (syn : Synapse) (hsyn : (s0.heap p).synapses[j]? = some syn)
    (hto : syn.id_to = i) :
    ((renormalize_resource w s0 step).heap p).synapses[j]? = some syn := by
  rw [renormalize_resource_heap]
  simp only [Projection.with_synapses, List.getElem?_map, hsyn, Option.map_some']
  have hcount : w.count p = 0 := by
    rw [List.count_eq_zero]
    intro hp
    have hmem : ((p, j) : SynapsePtr) ∈ get_all_connected_synapses s0.heap w i :=
      (mem_get_all_connected_synapses _ _ _ _).2 ⟨hp, syn, hsyn, hto⟩
    rw [hnone] at hmem
    cases hmem
  congr 1
  unfold renormalized_synapse
  rw [hcount]
  split
  · split
    · split <;> rfl
    · rfl
  · rfl

/-- C11, as the code has it: `renormalize_resource` has no guard for a neuron that
passes both skip tests but has zero connected synapses and drain coefficient
`0`. The iteration for that neuron takes the path that divides: it is the
statements after the two skip tests, run with the share
`free_synaptic_resource / 0` over the empty vector of synapses, so that the
share is added to no synapse and the iteration leaves the memory of the
projections as it is. After the whole pass the free resource of the neuron is
`0`, its other fields are kept, no synapse that ends in the neuron has changed
in any projection, and the pass has gone on: every neuron of the population
that passes both skip tests ends with free resource `0`. -/
theorem renormalize_resource_no_synapses (working_projections : List Nat) (state : NetState)
    (step : Nat) (i : Nat) (neuron : Neuron)
    (hneuron : state.population[i]? = some neuron)
    (hperiod : in_isi_period neuron step = false)
    (hthreshold : below_threshold neuron = false)
    (hnone : get_all_connected_synapses state.heap working_projections i = [])
    (hdrain : neuron.resource_drain_coefficient = FloatVal.fin 0) :
    add_resource_value state.heap working_projections neuron i =
      neuron.free_synaptic_resource / FloatVal.fin 0 ∧
    renormalize_neuron working_projections step state i =
      { population :=
          state.population.set i { neuron with free_synaptic_resource := FloatVal.fin 0 }
        heap :=
          recalculate_synapse_weights
            (([] : List SynapsePtr).foldl
              (fun h synapse =>
                modify_params h synapse
                  (add_resource (neuron.free_synaptic_resource / FloatVal.fin 0)))
              state.heap)
            [] } ∧
    (renormalize_neuron working_projections step state i).heap = state.heap ∧
    (renormalize_resource working_projections state step).population[i]? =
      some { neuron with free_synaptic_resource := FloatVal.fin 0 } ∧
    (∀ (p j : Nat) (synapse : Synapse), (state.heap p).synapses[j]? = some synapse →
      synapse.id_to = i →
      ((renormalize_resource working_projections state step).heap p).synapses[j]? =
        some synapse) ∧
    ∀ (j : Nat) (other : Neuron), state.population[j]? = some other →
      in_isi_period other step = false → below_threshold other = false →
      (renormalize_resource working_projections state step).population[j]? =
        some { other with free_synaptic_resource := FloatVal.fin 0 } := by
  have hskip := is_skipped_false neuron step hperiod hthreshold
  have hiter := renormalize_neuron_no_synapses working_projections step state i neuron hneuron
    hskip hnone hdrain
  refine ⟨?_, hiter, ?_, ?_, ?_, ?_⟩
  · unfold add_resource_value
    rw [hnone, hdrain, FloatVal.ofNat_eq, FloatVal.fin_add]
    norm_num
  · rw [hiter]
    rfl
  · exact renormalize_resource_neuron working_projections state step i neuron hneuron hskip
  · intro p j synapse hsyn hto
    exact renormalize_resource_unconnected working_projections state step i hnone p j synapse
      hsyn hto
  · intro j other hother h1 h2
    exact renormalize_resource_neuron working_projections state step j other hother
      (is_skipped_false other step h1 h2)

theorem example_no_synapses_connected :
    get_all_connected_synapses example_state_no_synapses.heap [0] 0 = [] := by
  decide

/-- A neuron with free resource `8`, no drain and no synapses. -/
theorem renormalize_resource_no_synapses_witness :
    example_state_no_synapses.population[0]? = some example_neuron_no_drain ∧
    in_isi_period example_neuron_no_drain 100 = false ∧
    below_threshold example_neuron_no_drain = false ∧
    get_all_connected_synapses example_state_no_synapses.heap [0] 0 = [] ∧
    example_neuron_no_drain.resource_drain_coefficient = FloatVal.fin 0 ∧
    (add_resource_value example_state_no_synapses.heap [0] example_neuron_no_drain 0 =
      example_neuron_no_drain.free_synaptic_resource / FloatVal.fin 0 ∧
    renormalize_neuron [0] 100 example_state_no_synapses 0 =
      { population :=
          example_state_no_synapses.population.set 0
            { example_neuron_no_drain with free_synaptic_resource := FloatVal.fin 0 }
        heap :=
          recalculate_synapse_weights
            (([] : List SynapsePtr).foldl
              (fun h synapse =>
                modify_params h synapse
                  (add_resource
                    (example_neuron_no_drain.free_synaptic_resource / FloatVal.fin 0)))
              example_state_no_synapses.heap)
            [] } ∧
    (renormalize_neuron [0] 100 example_state_no_synapses 0).heap =
      example_state_no_synapses.heap ∧
    (renormalize_resource [0] example_state_no_synapses 100).population[0]? =
      some { example_neuron_no_drain with free_synaptic_resource := FloatVal.fin 0 } ∧
    (∀ (p j : Nat) (synapse : Synapse),
      (example_state_no_synapses.heap p).synapses[j]? = some synapse →
      synapse.id_to = 0 →
      ((renormalize_resource [0] example_state_no_synapses 100).heap p).synapses[j]? =
        some synapse) ∧
    ∀ (j : Nat) (other : Neuron), example_state_no_synapses.population[j]? = some other →
      in_isi_period other 100 = false → below_threshold other = false →
      (renormalize_resource [0] example_state_no_synapses 100).population[j]? =
        some { other with free_synaptic_resource := FloatVal.fin 0 }) :=
  ⟨rfl, example_no_drain_processed.1, example_no_drain_processed.2,
    example_no_synapses_connected, rfl,
    renormalize_resource_no_synapses [0] example_state_no_synapses 100 0
      example_neuron_no_drain rfl example_no_drain_processed.1 example_no_drain_processed.2
      example_no_synapses_connected rfl⟩

/-- C11 fails: for a neuron with free resource `8`, threshold `1`, drain
coefficient `0` and no connected synapses, which passes both skip tests, the
pass divides `8` by `0 + 0` (the share is `+inf`) and sets the free resource to
`0`; it is not left at `8`. -/
theorem renormalize_resource_unguarded :
    in_isi_period example_neuron_no_drain 100 = false ∧
    below_threshold example_neuron_no_drain = false ∧
    get_all_connected_synapses example_state_no_synapses.heap [0] 0 = [] ∧
    example_neuron_no_drain.resource_drain_coefficient = FloatVal.fin 0 ∧
    example_neuron_no_drain.free_synaptic_resource = FloatVal.fin 8 ∧
    add_resource_value example_state_no_synapses.heap [0] example_neuron_no_drain 0 =
      FloatVal.pinf ∧
    ((renormalize_resource [0] example_state_no_synapses 100).population[0]?).map
      Neuron.free_synaptic_resource = some (FloatVal.fin 0) ∧
    FloatVal.fin 0 ≠ FloatVal.fin 8 := by
  refine ⟨example_no_drain_processed.1, example_no_drain_processed.2,
    example_no_synapses_connected, rfl, rfl, ?_, ?_, ?_⟩
  · unfold add_resource_value
    rw [example_no_synapses_connected]
    show FloatVal.div (fin 8) (FloatVal.add (fin ((0 : Nat) : ℚ)) (fin 0)) = pinf
    simp [FloatVal.add, FloatVal.div, FloatVal.signedInf]
  · exact renormalize_resource_free [0] example_state_no_synapses 100 0
      example_neuron_no_drain rfl
      (is_skipped_false _ _ example_no_drain_processed.1 example_no_drain_processed.2)
  · intro h
    have := FloatVal.fin.inj h
    norm_num at this

/-! ## Idempotence of the pass -/

theorem FloatVal.add_fin_zero (x : FloatVal) : x + fin 0 = x := by
  show FloatVal.add x (fin 0) = x
  cases x <;> simp [FloatVal.add]

theorem add_resource_zero_iterate (m : Nat) (x : STDPSynapseParams) :
    (add_resource (fin 0))^[m] x = x := by
  induction m with
  | zero => rfl
  | succ m ih =>
    rw [Function.iterate_succ_apply', ih]
    unfold add_resource
    rw [FloatVal.add_fin_zero]

theorem renormalize_neuron_length (w : List Nat) (step : Nat) (s : NetState) (k : Nat) :
    (renormalize_neuron w step s k).population.length = s.population.length := by
  unfold renormalize_neuron
  cases s.population[k]? with
  | none => rfl
  | some neuron =>
    simp only
    split
    · rfl
    · split
      · rfl
      · simp

theorem renormalize_resource_length (w : List Nat) (s0 : NetState) (step : Nat) :
    (renormalize_resource w s0 step).population.length = s0.population.length := by
  unfold renormalize_resource
  generalize List.range s0.population.length = l
  induction l using List.reverseRecOn with
  | nil => rfl
  | append_singleton l k ih =>
    rw [List.foldl_append, List.foldl_cons, List.foldl_nil, renormalize_neuron_length, ih]

theorem NetState.eq_of_parts (a b : NetState) (h1 : a.population = b.population)
    (h2 : a.heap = b.heap) : a = b := by
  cases a; cases b; simp_all

theorem in_isi_period_free (neuron : Neuron) (step : Nat) (v : FloatVal) :
    in_isi_period { neuron with free_synaptic_resource := v } step =
      in_isi_period neuron step := rfl

theorem renormalized_neuron_idem (step bound i : Nat) (neuron : Neuron) :
    renormalized_neuron step bound i (renormalized_neuron step bound i neuron) =
      renormalized_neuron step bound i neuron := by
  unfold renormalized_neuron
  by_cases h : i < bound ∧ is_skipped neuron step = false
  · rw [if_pos h]
    split <;> rfl
  · rw [if_neg h, if_neg h]

theorem renormalized_synapse_twice (w : List Nat) (s0 : NetState) (step : Nat)
    (hdrain : ∀ neuron ∈ s0.population,
      ∃ q : ℚ, 0 ≤ q ∧ neuron.resource_drain_coefficient = fin q)
    (p : Nat) (syn : Synapse) (hsyn : syn ∈ (s0.heap p).synapses) :
    renormalized_synapse w (renormalize_resource w s0 step) step s0.population.length p
        (renormalized_synapse w s0 step s0.population.length p syn) =
      renormalized_synapse w s0 step s0.population.length p syn := by
  have hid := renormalized_synapse_id_to w s0 step s0.population.length p syn
  generalize hg : renormalized_synapse w s0 step s0.population.length p syn = gsyn at hid
  unfold renormalized_synapse
  rw [hid]
  by_cases hlt : syn.id_to < s0.population.length
  swap
  · rw [if_neg hlt]
  rw [if_pos hlt, renormalize_resource_population]
  have hn : s0.population[syn.id_to]? = some s0.population[syn.id_to] :=
    List.getElem?_eq_getElem hlt
  have hmemn : s0.population[syn.id_to] ∈ s0.population := List.getElem_mem _
  generalize s0.population[syn.id_to] = neuron at hn hmemn
  rw [hn]
  simp only [Option.map_some']
  cases hskip : is_skipped neuron step with
  | true =>
    have : renormalized_neuron step s0.population.length syn.id_to neuron = neuron := by
      simp [renormalized_neuron, hskip]
    rw [this]
    simp [hskip]
  | false =>
    have hn1 : renormalized_neuron step s0.population.length syn.id_to neuron =
        { neuron with free_synaptic_resource := fin 0 } := by
      simp [renormalized_neuron, hskip, hlt]
    rw [hn1]
    split
    · rfl
    · have hgval : gsyn =
          on_params
            (renormalized_params (w.count p)
              (add_resource_value s0.heap w neuron syn.id_to)) syn := by
        rw [← hg]
        simp [renormalized_synapse, hlt, hn, hskip]
      by_cases hc : 1 ≤ w.count p
      swap
      · have hc0 : w.count p = 0 := by omega
        rw [hc0]
        rfl
      · obtain ⟨j, hj⟩ := List.getElem?_of_mem hsyn
        have hconn : ((p, j) : SynapsePtr) ∈ get_all_connected_synapses s0.heap w syn.id_to :=
          (mem_get_all_connected_synapses _ _ _ _).2
            ⟨List.count_pos_iff.1 hc, syn, hj, rfl⟩
        have hN : 1 ≤ (get_all_connected_synapses s0.heap w syn.id_to).length :=
          List.length_pos_of_mem hconn
        have hsame : get_all_connected_synapses (renormalize_resource w s0 step).heap w
            syn.id_to = get_all_connected_synapses s0.heap w syn.id_to := by
          apply get_all_connected_synapses_congr
          intro q
          rw [renormalize_resource_heap]
          simp only [Projection.with_synapses, List.map_map]
          apply List.map_congr_left
          intro x _
          exact renormalized_synapse_id_to w s0 step _ q x
        obtain ⟨d, hd0, hd⟩ := hdrain neuron hmemn
        have hzero : add_resource_value (renormalize_resource w s0 step).heap w
            { neuron with free_synaptic_resource := fin 0 } syn.id_to = fin 0 := by
          unfold add_resource_value
          rw [hsame]
          simp only [hd, FloatVal.ofNat_eq, FloatVal.fin_add]
          have hpos : ((get_all_connected_synapses s0.heap w syn.id_to).length : ℚ) + d ≠ 0 := by
            have : (1 : ℚ) ≤ ((get_all_connected_synapses s0.heap w syn.id_to).length : ℚ) := by
              exact_mod_cast hN
            linarith
          rw [FloatVal.fin_div _ _ hpos, zero_div]
        rw [hzero, hgval]
        unfold on_params renormalized_params
        simp only [add_resource_zero_iterate, recalculate_weight_iterate_idem]

/-- C19: when every neuron of the population has a finite drain coefficient that
is not negative, running `renormalize_resource` twice at the same step gives
exactly the state (neurons and memory of the projections) that running it once
gives. -/
theorem renormalize_resource_idempotent (working_projections : List Nat) (state : NetState)
    (step : Nat)
    (hdrain : ∀ neuron ∈ state.population,
      ∃ q : ℚ, 0 ≤ q ∧ neuron.resource_drain_coefficient = FloatVal.fin q) :
    renormalize_resource working_projections
        (renormalize_resource working_projections state step) step =
      renormalize_resource working_projections state step := by
  apply NetState.eq_of_parts
  · apply List.ext_getElem?
    intro i
    rw [renormalize_resource_population, renormalize_resource_length,
      renormalize_resource_population]
    cases state.population[i]? with
    | none => rfl
    | some neuron =>
      simp only [Option.map_some']
      rw [renormalized_neuron_idem]
  · funext p
    rw [renormalize_resource_heap, renormalize_resource_length]
    conv_rhs => rw [renormalize_resource_heap]
    conv_lhs => rw [renormalize_resource_heap]
    simp only [Projection.with_synapses, List.map_map]
    congr 1
    apply List.map_congr_left
    intro syn hsyn
    exact renormalized_synapse_twice working_projections state step hdrain p syn hsyn

theorem example_state_drain :
    ∀ neuron ∈ example_state.population,
      ∃ q : ℚ, 0 ≤ q ∧ neuron.resource_drain_coefficient = FloatVal.fin q := by
  intro neuron hmem
  have h : neuron = example_neuron := by simpa [example_state] using hmem
  subst h
  exact ⟨1, by norm_num, rfl⟩

/-- Two passes over the example state at step 100. -/
theorem renormalize_resource_idempotent_witness :
    (∀ neuron ∈ example_state.population,
      ∃ q : ℚ, 0 ≤ q ∧ neuron.resource_drain_coefficient = FloatVal.fin q) ∧
    renormalize_resource [0] (renormalize_resource [0] example_state 100) 100 =
      renormalize_resource [0] example_state 100 :=
  ⟨example_state_drain, renormalize_resource_idempotent [0] example_state 100 example_state_drain⟩

end knp
